import Mathlib

/-!
# PIC18libs: ring buffer, UART buffering and stepper sequencer

A shallow embedding of `circular_buffer.c`, `UART_lib.c`,
`stepper_motor_lib.c` and the number conversions of `std_string.c`.  Bytes and 16-bit indices are natural numbers; the
places where the C code relies on unsigned wrap-around carry an explicit
`% 65536` or `% 256`.  Output parameters (`CircularBufferError*`,
`uint8_t* error`) are modelled by returning the value left in the slot.
-/

namespace PIC18

/-! ## circular_buffer.h / circular_buffer.c -/

/-- The enumeration `CircularBufferError` of circular_buffer.h. -/
inductive CircularBufferError where
  | NO_ERROR
  | BUFFER_OVERFLOW
  | BUFFER_UNDERFLOW
  | UNKNOWN_ERROR
  deriving DecidableEq, Repr

/-- The struct `CircularBuffer`.  `base` is the memory reached through the
`uint8_t* base` pointer, addressed by offset; `size`, `head` and `tail` are
the `uint16_t` fields. -/
structure CircularBuffer where
  base : Nat → Nat
  size : Nat
  head : Nat
  tail : Nat

/-- The function `circularBufferFull`: `headTemp` is a `uint16_t` copy of
`head`, pre-incremented (16-bit wrap), reset to 0 when it reaches `size`, and
compared with `tail`. -/
def circularBufferFull (buf : CircularBuffer) : Nat :=
  let headTemp := (buf.head + 1) % 65536
  let headTemp := if headTemp ≥ buf.size then 0 else headTemp
  if headTemp = buf.tail then 1 else 0

/-- The function `circularBufferEmpty`: `head == tail`. -/
def circularBufferEmpty (buf : CircularBuffer) : Nat :=
  if buf.head = buf.tail then 1 else 0

/-- The function `readCircularBuffer`.  Returns the byte, the buffer after the
call and the value stored through `error`. -/
def readCircularBuffer (buf : CircularBuffer) :
    Nat × CircularBuffer × CircularBufferError :=
  if circularBufferEmpty buf ≠ 0 then
    (0x00, buf, CircularBufferError.BUFFER_UNDERFLOW)
  else
    let temp := buf.base buf.tail
    let tail := (buf.tail + 1) % 65536
    let tail := if tail ≥ buf.size then 0 else tail
    (temp, { buf with tail := tail }, CircularBufferError.NO_ERROR)

/-- The function `writeCircularBuffer`.  Returns the buffer after the call and
the value stored through `error`. -/
def writeCircularBuffer (buf : CircularBuffer) (data : Nat) :
    CircularBuffer × CircularBufferError :=
  if circularBufferFull buf ≠ 0 then
    (buf, CircularBufferError.BUFFER_OVERFLOW)
  else
    let base := Function.update buf.base buf.head data
    let head := (buf.head + 1) % 65536
    let head := if head ≥ buf.size then 0 else head
    ({ buf with base := base, head := head }, CircularBufferError.NO_ERROR)

/-! ### Abstraction of a buffer as a queue -/

/-- Well-formed buffer: `size` fits a `uint16_t` and both indices are below
`size`. -/
def CircularBuffer.WellFormed (buf : CircularBuffer) : Prop :=
  buf.size < 65536 ∧ buf.head < buf.size ∧ buf.tail < buf.size

/-- Number of bytes written and not yet read. -/
def cbCount (buf : CircularBuffer) : Nat :=
  (buf.head + buf.size - buf.tail) % buf.size

/-- The bytes written and not yet read, oldest first. -/
def cbContents (buf : CircularBuffer) : List Nat :=
  (List.range (cbCount buf)).map (fun k => buf.base ((buf.tail + k) % buf.size))

/-- Number of further bytes the buffer accepts before it is full. -/
def cbFree (buf : CircularBuffer) : Nat :=
  buf.size - 1 - cbCount buf

/-- One call made on a ring buffer by its user. -/
inductive BufferCall where
  | write (data : Nat)
  | read
  deriving DecidableEq, Repr

/-- Runs a sequence of calls, collecting in `accepted` the bytes of the writes
that reported `NO_ERROR` and in `returned` the bytes of the reads that
reported `NO_ERROR`. -/
def runCalls : CircularBuffer → List BufferCall → List Nat → List Nat →
    CircularBuffer × List Nat × List Nat
  | buf, [], accepted, returned => (buf, accepted, returned)
  | buf, BufferCall.write d :: cs, accepted, returned =>
    let r := writeCircularBuffer buf d
    runCalls r.1 cs
      (if r.2 = CircularBufferError.NO_ERROR then accepted ++ [d] else accepted) returned
  | buf, BufferCall.read :: cs, accepted, returned =>
    let r := readCircularBuffer buf
    runCalls r.2.1 cs accepted
      (if r.2.2 = CircularBufferError.NO_ERROR then returned ++ [r.1] else returned)

/-- Calls `writeCircularBuffer` once per byte, in order, collecting the error
codes. -/
def writeAll : CircularBuffer → List Nat → CircularBuffer × List CircularBufferError
  | buf, [] => (buf, [])
  | buf, d :: ds =>
    let r := writeCircularBuffer buf d
    let rest := writeAll r.1 ds
    (rest.1, r.2 :: rest.2)

/-- Calls `readCircularBuffer` `n` times, collecting the returned bytes and
the error codes. -/
def readN : CircularBuffer → Nat → CircularBuffer × List Nat × List CircularBufferError
  | buf, 0 => (buf, [], [])
  | buf, n + 1 =>
    let r := readCircularBuffer buf
    let rest := readN r.2.1 n
    (rest.1, r.1 :: rest.2.1, r.2.2 :: rest.2.2)

/-! ## UART_lib.c -/

/-- The macro `TRANSMIT_BUFFER_SIZE`. -/
def TRANSMIT_BUFFER_SIZE : Nat := 0x80

/-- The macro `RECEIVE_BUFFER_SIZE`. -/
def RECEIVE_BUFFER_SIZE : Nat := 0x20

/-- The globals of UART_lib.c and the special function registers it touches:
the two ring buffers, the enable bits `PIE1bits.TXIE` / `PIE1bits.RCIE`, the
flag bits `PIR1bits.TXIF` / `PIR1bits.RCIF`, and the data registers `TXREG`
and `RCREG`. -/
structure UARTState where
  transmitBuffer : CircularBuffer
  receiveBuffer : CircularBuffer
  TXIE : Bool
  TXIF : Bool
  RCIE : Bool
  RCIF : Bool
  TXREG : Nat
  RCREG : Nat

/-- The function `writeUART`.  `error` is the value held by the caller's slot
on entry; the second component of the result is the value it holds on
return. -/
def writeUART (s : UARTState) (data : Nat) (error : Nat) : UARTState × Nat :=
  let r := writeCircularBuffer s.transmitBuffer data
  let s := { s with transmitBuffer := r.1 }
  if r.2 ≠ CircularBufferError.NO_ERROR then
    (s, 0x01)
  else
    ({ s with TXIE := true }, error)

/-- The statement `while(circularBufferFull(&transmitBuffer));` run with no
interrupt served meanwhile: every test that finds the buffer full costs one
unit of fuel and repeats on the same state. -/
def waitNotFull : Nat → UARTState → Option UARTState
  | 0, _ => none
  | fuel + 1, s =>
    if circularBufferFull s.transmitBuffer ≠ 0 then waitNotFull fuel s else some s

/-- The `for` loop of `writeUARTMessage`, `i` being the offset of the pointer
`i` from `msg` and `msg k` the character at offset `k`.  One unit of fuel per
iteration. -/
def writeUARTMessageLoop :
    Nat → UARTState → (Nat → Nat) → Nat → Nat → Option (UARTState × Nat)
  | 0, _, _, _, _ => none
  | fuel + 1, s, msg, i, error =>
    if msg i ≠ 0 then
      match waitNotFull (fuel + 1) s with
      | none => none
      | some s =>
        let r := writeCircularBuffer s.transmitBuffer (msg i)
        let s := { s with transmitBuffer := r.1 }
        let error := if r.2 ≠ CircularBufferError.NO_ERROR then 0x01 else error
        let s := { s with TXIE := true }
        writeUARTMessageLoop fuel s msg (i + 1) error
    else
      some (s, error)

/-- The function `writeUARTMessage`; `none` when the fuel does not suffice. -/
def writeUARTMessage (fuel : Nat) (s : UARTState) (msg : Nat → Nat) (error : Nat) :
    Option (UARTState × Nat) :=
  writeUARTMessageLoop fuel s msg 0 error

/-- The function `readUART`.  Both paths store through `error`; the result is
the returned byte, the state and the stored error value. -/
def readUART (s : UARTState) : Nat × UARTState × Nat :=
  let r := readCircularBuffer s.receiveBuffer
  let s := { s with receiveBuffer := r.2.1 }
  if r.2.2 ≠ CircularBufferError.NO_ERROR then
    (0x00, s, 0x01)
  else
    (r.1, s, 0x00)

/-- The first `if` statement of `UARTISR` (lines 135-150), the transmit side. -/
def UARTISR_transmit (s : UARTState) : UARTState :=
  if s.TXIE && s.TXIF then
    if circularBufferEmpty s.transmitBuffer = 0 then
      let r := readCircularBuffer s.transmitBuffer
      { s with transmitBuffer := r.2.1, TXREG := r.1 }
    else
      { s with TXIE := false }
  else s

/-- The second `if` statement of `UARTISR` (lines 151-159), the receive side. -/
def UARTISR_receive (s : UARTState) : UARTState :=
  if s.RCIE && s.RCIF then
    if circularBufferFull s.receiveBuffer = 0 then
      let r := writeCircularBuffer s.receiveBuffer s.RCREG
      { s with receiveBuffer := r.1 }
    else s
  else s

/-- The function `UARTISR`: the transmit side, then the receive side. -/
def UARTISR (s : UARTState) : UARTState :=
  UARTISR_receive (UARTISR_transmit s)

/-! ## stepper_motor_lib.h / stepper_motor_lib.c -/

/-- The enumeration `StepperMotorDirection`. -/
inductive StepperMotorDirection where
  | FORWARD
  | BACKWARD
  deriving DecidableEq, Repr

/-- The struct `IOPin`: the address of a port byte and a bit position. -/
structure IOPin where
  address : Nat
  bit_position : Nat
  deriving DecidableEq, Repr

/-- The macro `STEPPER_MOTOR_MAX_SPEED`. -/
def STEPPER_MOTOR_MAX_SPEED : Nat := 0xcb00

/-- The globals of stepper_motor_lib.c, the 16-bit timer register `TMR1`, the
bits `PIE1bits.TMR1IE` and `PIR1bits.TMR1IF`, and the data memory the pin
addresses point into. -/
structure StepperState where
  currentStep : Nat
  stepsToGo : Nat
  direction : StepperMotorDirection
  previousDirection : StepperMotorDirection
  speed : Nat
  motor_pins : Fin 4 → IOPin
  TMR1 : Nat
  TMR1IE : Bool
  TMR1IF : Bool
  memory : Nat → Nat

/-- The function `startStepperMotor`.  `currentStep` is a `uint8_t`, so
`+= 1` and `-= 1` wrap modulo 256 before `%= 4`. -/
def startStepperMotor (s : StepperState) (distance : Nat)
    (dir : StepperMotorDirection) (targetSpeed : Nat) : StepperState :=
  let s := { s with previousDirection := s.direction }
  let s := { s with stepsToGo := distance }
  let s :=
    if targetSpeed > STEPPER_MOTOR_MAX_SPEED then
      { s with speed := STEPPER_MOTOR_MAX_SPEED }
    else
      { s with speed := targetSpeed }
  let s := { s with TMR1 := s.speed }
  let s := { s with direction := dir }
  let s :=
    if s.direction ≠ s.previousDirection then
      let s :=
        match s.direction with
        | StepperMotorDirection.FORWARD =>
          { s with currentStep := (s.currentStep + 1) % 256 }
        | StepperMotorDirection.BACKWARD =>
          { s with currentStep := (s.currentStep + 256 - 1) % 256 }
      { s with currentStep := s.currentStep % 4 }
    else s
  { s with TMR1IE := true }

/-- The operator `~` applied to an `int` as a bit pattern; `int` is 16 bits
wide for this target.  Only the low 8 bits of the result reach a port byte. -/
def bitNot16 (x : Nat) : Nat := 65535 - x % 65536

/-- The statement `*pin.address |= (0x01 << pin.bit_position);` on the data
memory; the port byte is an `unsigned char`, hence `% 256`. -/
def setPin (memory : Nat → Nat) (pin : IOPin) : Nat → Nat :=
  Function.update memory pin.address
    ((memory pin.address ||| (0x01 <<< pin.bit_position)) % 256)

/-- The statement `*pin.address &= ~(0x01 << pin.bit_position);`. -/
def clearPin (memory : Nat → Nat) (pin : IOPin) : Nat → Nat :=
  Function.update memory pin.address
    ((memory pin.address &&& bitNot16 (0x01 <<< pin.bit_position)) % 256)

/-- The statement `*pin.address &= (0xfe << pin.bit_position);` of
`release_stepper_motor`. -/
def releasePin (memory : Nat → Nat) (pin : IOPin) : Nat → Nat :=
  Function.update memory pin.address
    ((memory pin.address &&& (0xfe <<< pin.bit_position)) % 256)

/-- The function `initStepperMotor`, on the library variables: `currentStep`
and `stepsToGo` are zeroed and the four pins copied.  The `T1CON` bits it
writes are not part of `StepperState`. -/
def initStepperMotor (s : StepperState) (motor_pins_in : Fin 4 → IOPin) :
    StepperState :=
  let s := { s with currentStep := 0 }
  let s := { s with stepsToGo := 0 }
  { s with motor_pins := motor_pins_in }

/-- The function `stepperMotorFinished`: `stepsToGo == 0`. -/
def stepperMotorFinished (s : StepperState) : Nat :=
  if s.stepsToGo = 0 then 1 else 0

/-- The function `release_stepper_motor`: four statements, pins 0 to 3. -/
def release_stepper_motor (s : StepperState) : StepperState :=
  let s := { s with memory := releasePin s.memory (s.motor_pins 0) }
  let s := { s with memory := releasePin s.memory (s.motor_pins 1) }
  let s := { s with memory := releasePin s.memory (s.motor_pins 2) }
  { s with memory := releasePin s.memory (s.motor_pins 3) }

/-- The four pin statements at the head of each `case` of `switch(currentStep)`
in `STEPPERISR` (lines 150-153, 173-176, 196-199, 219-222), pins 0 to 3 in
that order; no statement for any other value. -/
def STEPPERISR_pins (currentStep : Nat) (motor_pins : Fin 4 → IOPin)
    (memory : Nat → Nat) : Nat → Nat :=
  match currentStep with
  | 0 =>
    let memory := setPin memory (motor_pins 0)
    let memory := clearPin memory (motor_pins 1)
    let memory := setPin memory (motor_pins 2)
    clearPin memory (motor_pins 3)
  | 1 =>
    let memory := setPin memory (motor_pins 0)
    let memory := clearPin memory (motor_pins 1)
    let memory := clearPin memory (motor_pins 2)
    setPin memory (motor_pins 3)
  | 2 =>
    let memory := clearPin memory (motor_pins 0)
    let memory := setPin memory (motor_pins 1)
    let memory := clearPin memory (motor_pins 2)
    setPin memory (motor_pins 3)
  | 3 =>
    let memory := clearPin memory (motor_pins 0)
    let memory := setPin memory (motor_pins 1)
    let memory := setPin memory (motor_pins 2)
    clearPin memory (motor_pins 3)
  | _ => memory

/-- The inner `switch(direction)` of each `case` of `switch(currentStep)` in
`STEPPERISR`: the new value of the `uint8_t currentStep`. -/
def STEPPERISR_advance (currentStep : Nat) (direction : StepperMotorDirection) :
    Nat :=
  match currentStep with
  | 0 =>
    match direction with
    | StepperMotorDirection.FORWARD => (currentStep + 1) % 256
    | StepperMotorDirection.BACKWARD => 3
  | 1 =>
    match direction with
    | StepperMotorDirection.FORWARD => (currentStep + 1) % 256
    | StepperMotorDirection.BACKWARD => (currentStep + 256 - 1) % 256
  | 2 =>
    match direction with
    | StepperMotorDirection.FORWARD => (currentStep + 1) % 256
    | StepperMotorDirection.BACKWARD => (currentStep + 256 - 1) % 256
  | 3 =>
    match direction with
    | StepperMotorDirection.FORWARD => 0
    | StepperMotorDirection.BACKWARD => (currentStep + 256 - 1) % 256
  | _ => currentStep

/-- The function `STEPPERISR`.  `--stepsToGo` is a 16-bit decrement. -/
def STEPPERISR (s : StepperState) : StepperState :=
  if s.TMR1IF && s.TMR1IE then
    let s := { s with TMR1IF := false }
    let s := { s with TMR1 := s.speed }
    let s := { s with
      memory := STEPPERISR_pins s.currentStep s.motor_pins s.memory,
      currentStep := STEPPERISR_advance s.currentStep s.direction }
    let s := { s with stepsToGo := (s.stepsToGo + 65536 - 1) % 65536 }
    if s.stepsToGo = 0 then { s with TMR1IE := false } else s
  else s

/-! ### Vocabulary for the stepper claims -/

/-- One timer tick: the hardware sets `TMR1IF`, then `STEPPERISR` runs. -/
def tick (s : StepperState) : StepperState :=
  STEPPERISR { s with TMR1IF := true }

/-- The state after `n` timer ticks. -/
def ticks : Nat → StepperState → StepperState
  | 0, s => s
  | n + 1, s => tick (ticks n s)

/-- The level of bit `j` of the port byte at `address`. -/
def portBit (memory : Nat → Nat) (address j : Nat) : Bool :=
  (memory address).testBit j

/-- The level of motor pin `i`. -/
def pinLevel (s : StepperState) (i : Fin 4) : Bool :=
  portBit s.memory (s.motor_pins i).address (s.motor_pins i).bit_position

/-- The phase table as the specification words it: row 0 has pins 0 and 2
high, row 1 pins 0 and 3, row 2 pins 1 and 3, row 3 pins 1 and 2. -/
def phaseTable (row : Nat) (i : Fin 4) : Bool :=
  match row with
  | 0 => decide (i = 0 ∨ i = 2)
  | 1 => decide (i = 0 ∨ i = 3)
  | 2 => decide (i = 1 ∨ i = 3)
  | 3 => decide (i = 1 ∨ i = 2)
  | _ => false

/-- The four pins are bound to pairwise distinct (address, bit position)
pairs, with bit positions 0 to 7. -/
def PinsBound (motor_pins : Fin 4 → IOPin) : Prop :=
  (∀ i j : Fin 4, i ≠ j → motor_pins i ≠ motor_pins j) ∧
  ∀ i : Fin 4, (motor_pins i).bit_position ≤ 7

/-- What can happen to the step sequencer: a call of `startStepperMotor`, a
call of `STEPPERISR`, a call of `release_stepper_motor`, or the hardware
setting `TMR1IF` on a timer overflow. -/
inductive StepperEvent where
  | start (distance : Nat) (dir : StepperMotorDirection) (targetSpeed : Nat)
  | isr
  | release
  | timerOverflow
  deriving DecidableEq, Repr

/-- The effect of one event. -/
def applyEvent (s : StepperState) : StepperEvent → StepperState
  | StepperEvent.start distance dir targetSpeed =>
    startStepperMotor s distance dir targetSpeed
  | StepperEvent.isr => STEPPERISR s
  | StepperEvent.release => release_stepper_motor s
  | StepperEvent.timerOverflow => { s with TMR1IF := true }

/-- The effect of a sequence of events, first event first. -/
def runStepper (s : StepperState) (events : List StepperEvent) : StepperState :=
  events.foldl applyEvent s

/-- A start event carries a `uint16_t` distance of at least 1; the other
events are unconstrained. -/
def StepperEvent.startsNonzero : StepperEvent → Prop
  | StepperEvent.start distance _ _ => 1 ≤ distance ∧ distance < 65536
  | _ => True

/-! ## std_string.c -/

/-- The function `std_string_ascii_digit_to_int` on a `uint8_t`: every `-=`
wraps modulo 256.  The character codes are `'0'` = 0x30, `'9'` = 0x39,
`'A'` = 0x41 and `'a'` = 0x61. -/
def std_string_ascii_digit_to_int (digit : Nat) : Nat :=
  let digit := (digit + 256 - 0x30) % 256
  if digit ≤ 9 then digit
  else
    let digit := (digit + 256 - (0x41 - (0x39 + 1))) % 256
    if digit ≥ 0x0a ∧ digit ≤ 0x0f then digit
    else
      let digit := (digit + 256 - (0x61 - 0x41)) % 256
      if digit ≥ 0x0a ∧ digit ≤ 0x0f then digit
      else 0xff

/-- The function `std_string_int_to_ascii_digit` on a `uint8_t`: every `+=`
wraps modulo 256; `'f'` = 0x66. -/
def std_string_int_to_ascii_digit (num : Nat) : Nat :=
  let num := (num + 0x30) % 256
  if num ≥ 0x30 ∧ num ≤ 0x39 then num
  else
    let num := (num + (0x61 - (0x39 + 1))) % 256
    if num ≥ 0x61 ∧ num ≤ 0x66 then num
    else 0xff

/-- The `do ... while(n)` loop of `std_string_num_length`, one unit of fuel
per iteration; `length` is a `uint8_t`. -/
def std_string_num_length_loop : Nat → Nat → Nat → Nat → Option Nat
  | 0, _, _, _ => none
  | fuel + 1, n, base, length =>
    let n := n / base
    let length := (length + 1) % 256
    if n ≠ 0 then std_string_num_length_loop fuel n base length else some length

/-- The function `std_string_num_length`; `none` when the fuel does not
suffice. -/
def std_string_num_length (fuel n base : Nat) : Option Nat :=
  std_string_num_length_loop fuel n base 0

/-- The `do ... while(n)` loop of `std_string_uint_to_string`, `head` being an
address of the character memory; `n % base` is narrowed to the `uint8_t`
parameter of `std_string_int_to_ascii_digit`. -/
def std_string_uint_to_string_loop :
    Nat → (Nat → Nat) → Nat → Nat → Nat → Option (Nat → Nat)
  | 0, _, _, _, _ => none
  | fuel + 1, memory, head, n, base =>
    let memory :=
      Function.update memory head (std_string_int_to_ascii_digit (n % base % 256))
    let head := head - 1
    let n := n / base
    if n ≠ 0 then std_string_uint_to_string_loop fuel memory head n base
    else some memory

/-- The function `std_string_uint_to_string`, returning the character memory
after the call; `none` when the fuel does not suffice. -/
def std_string_uint_to_string (fuel : Nat) (memory : Nat → Nat)
    (target n base : Nat) : Option (Nat → Nat) :=
  match std_string_num_length fuel n base with
  | none => none
  | some length =>
    let head := target + length
    let memory := Function.update memory head 0
    let head := head - 1
    std_string_uint_to_string_loop fuel memory head n base

/-! ### Vocabulary for the string claims -/

/-- The number of base-`base` digits of `n`, 1 for `n = 0`. -/
def numDigits (base n : Nat) : Nat :=
  if n = 0 then 1 else (Nat.digits base n).length

/-- The `length` characters stored from address `target` on. -/
def readChars (memory : Nat → Nat) (target length : Nat) : List Nat :=
  (List.range length).map (fun k => memory (target + k))

/-- Reading a digit string back, left to right:
`value = value * base + std_string_ascii_digit_to_int(c)`. -/
def readNumber (base : Nat) (chars : List Nat) : Nat :=
  chars.foldl (fun value c => value * base + std_string_ascii_digit_to_int c) 0

/-- A character code in `'0'..'9'` or `'a'..'f'`. -/
def isLowerHexDigit (c : Nat) : Prop :=
  (0x30 ≤ c ∧ c ≤ 0x39) ∨ (0x61 ≤ c ∧ c ≤ 0x66)

/-! ## Concrete states used as examples -/

/-- A 4-slot buffer, empty, with both indices at 1. -/
def exampleBuffer : CircularBuffer :=
  { base := fun _ => 0, size := 4, head := 1, tail := 1 }

/-- A 4-slot buffer holding three bytes, hence full, with the indices wrapped. -/
def exampleFullBuffer : CircularBuffer :=
  { base := fun k => 10 + k, size := 4, head := 1, tail := 2 }

/-- A UART state after reset: both buffers empty, only the receive interrupt
enabled, the given bytes in the data registers. -/
def exampleUART (txif rcif : Bool) (rcreg : Nat) : UARTState :=
  { transmitBuffer := { base := fun _ => 0, size := TRANSMIT_BUFFER_SIZE, head := 0, tail := 0 },
    receiveBuffer := { base := fun _ => 0, size := RECEIVE_BUFFER_SIZE, head := 0, tail := 0 },
    TXIE := false, TXIF := txif, RCIE := true, RCIF := rcif, TXREG := 0, RCREG := rcreg }

/-- A UART state whose transmit buffer is full (head 126, tail 127). -/
def exampleUARTTxFull : UARTState :=
  { exampleUART true false 0 with
    transmitBuffer := { base := fun k => k, size := TRANSMIT_BUFFER_SIZE, head := 126, tail := 127 },
    TXIE := true }

/-- A UART state whose receive buffer is full (head 31, tail 0). -/
def exampleUARTRxFull : UARTState :=
  { exampleUART false true 0x55 with
    receiveBuffer := { base := fun k => k + 1, size := RECEIVE_BUFFER_SIZE, head := 31, tail := 0 } }

/-- The message "Hi" followed by its terminator. -/
def exampleMessage : Nat → Nat := fun k => [0x48, 0x69].getD k 0

/-- A stepper state mid-motion, going forward at step 0. -/
def exampleStepper : StepperState :=
  { currentStep := 0, stepsToGo := 5, direction := StepperMotorDirection.FORWARD,
    previousDirection := StepperMotorDirection.FORWARD, speed := 0x1000,
    motor_pins := fun i => { address := 0xF81, bit_position := i.val },
    TMR1 := 0x2000, TMR1IE := true, TMR1IF := false, memory := fun _ => 0 }

/-- The stepper state after reset and `initStepperMotor` with the pins on
bits 4 to 7 of the port byte at 0xF81, every bit of that byte high. -/
def exampleStepperHighPins : StepperState :=
  { currentStep := 0, stepsToGo := 0, direction := StepperMotorDirection.FORWARD,
    previousDirection := StepperMotorDirection.FORWARD, speed := 0,
    motor_pins := fun i => { address := 0xF81, bit_position := 4 + i.val },
    TMR1 := 0, TMR1IE := false, TMR1IF := false,
    memory := fun a => if a = 0xF81 then 0xFF else 0 }

/-! ## Helper lemmas on the queue abstraction -/

theorem mod_of_lt_two_mul (a n : Nat) (h : a < 2 * n) :
    a % n = if a < n then a else a - n := by
  split
  · exact Nat.mod_eq_of_lt (by assumption)
  · rw [Nat.mod_eq_sub_mod (by omega)]
    exact Nat.mod_eq_of_lt (by omega)

theorem cbCount_eq (buf : CircularBuffer) (hw : buf.WellFormed) :
    cbCount buf = if buf.tail ≤ buf.head then buf.head - buf.tail
      else buf.head + buf.size - buf.tail := by
  obtain ⟨_, hh, ht⟩ := hw
  unfold cbCount
  rw [mod_of_lt_two_mul _ _ (by omega)]
  split <;> split <;> omega

theorem cbCount_lt (buf : CircularBuffer) (hw : buf.WellFormed) :
    cbCount buf ≤ buf.size - 1 := by
  have := cbCount_eq buf hw
  obtain ⟨_, hh, ht⟩ := hw
  split at this <;> omega

theorem full_iff (buf : CircularBuffer) (hw : buf.WellFormed) :
    circularBufferFull buf ≠ 0 ↔ cbCount buf = buf.size - 1 := by
  have hc := cbCount_eq buf hw
  obtain ⟨hs, hh, ht⟩ := hw
  unfold circularBufferFull
  simp only []
  rw [Nat.mod_eq_of_lt (by omega)]
  split at hc <;> split <;> split <;> constructor <;> intro h <;> simp at * <;> omega

theorem empty_iff (buf : CircularBuffer) (hw : buf.WellFormed) :
    circularBufferEmpty buf ≠ 0 ↔ cbCount buf = 0 := by
  have hc := cbCount_eq buf hw
  obtain ⟨hs, hh, ht⟩ := hw
  unfold circularBufferEmpty
  split at hc <;> split <;> constructor <;> intro h <;> simp at * <;> omega

theorem index_at_count (buf : CircularBuffer) (hw : buf.WellFormed) :
    (buf.tail + cbCount buf) % buf.size = buf.head := by
  have hc := cbCount_eq buf hw
  obtain ⟨hs, hh, ht⟩ := hw
  rw [mod_of_lt_two_mul _ _ (by split at hc <;> omega)]
  split at hc <;> split <;> omega

theorem index_below_count (buf : CircularBuffer) (hw : buf.WellFormed) (k : Nat)
    (hk : k < cbCount buf) : (buf.tail + k) % buf.size ≠ buf.head := by
  have hc := cbCount_eq buf hw
  obtain ⟨hs, hh, ht⟩ := hw
  rw [mod_of_lt_two_mul _ _ (by split at hc <;> omega)]
  split at hc <;> split <;> omega

theorem write_eq (buf : CircularBuffer) (d : Nat) (hw : buf.WellFormed)
    (hf : circularBufferFull buf = 0) :
    writeCircularBuffer buf d =
      ({ buf with base := Function.update buf.base buf.head d,
                  head := if buf.head + 1 ≥ buf.size then 0 else buf.head + 1 },
        CircularBufferError.NO_ERROR) := by
  obtain ⟨hs, hh, ht⟩ := hw
  unfold writeCircularBuffer
  simp only [hf, ne_eq, not_true_eq_false, if_false]
  rw [Nat.mod_eq_of_lt (by omega)]

theorem read_eq (buf : CircularBuffer) (hw : buf.WellFormed)
    (he : circularBufferEmpty buf = 0) :
    readCircularBuffer buf =
      (buf.base buf.tail,
        { buf with tail := if buf.tail + 1 ≥ buf.size then 0 else buf.tail + 1 },
        CircularBufferError.NO_ERROR) := by
  obtain ⟨hs, hh, ht⟩ := hw
  unfold readCircularBuffer
  simp only [he, ne_eq, not_true_eq_false, if_false]
  rw [Nat.mod_eq_of_lt (by omega)]

theorem write_wf (buf : CircularBuffer) (d : Nat) (hw : buf.WellFormed) :
    (writeCircularBuffer buf d).1.WellFormed := by
  by_cases hf : circularBufferFull buf = 0
  · rw [write_eq buf d hw hf]
    obtain ⟨hs, hh, ht⟩ := hw
    refine ⟨hs, ?_, ht⟩
    show (if buf.head + 1 ≥ buf.size then 0 else buf.head + 1) < buf.size
    split <;> omega
  · unfold writeCircularBuffer
    simp only [ne_eq, hf, not_false_eq_true, if_true]
    exact hw

theorem read_wf (buf : CircularBuffer) (hw : buf.WellFormed) :
    (readCircularBuffer buf).2.1.WellFormed := by
  by_cases he : circularBufferEmpty buf = 0
  · rw [read_eq buf hw he]
    obtain ⟨hs, hh, ht⟩ := hw
    refine ⟨hs, hh, ?_⟩
    show (if buf.tail + 1 ≥ buf.size then 0 else buf.tail + 1) < buf.size
    split <;> omega
  · unfold readCircularBuffer
    simp only [ne_eq, he, not_false_eq_true, if_true]
    exact hw

theorem write_count (buf : CircularBuffer) (d : Nat) (hw : buf.WellFormed)
    (hf : circularBufferFull buf = 0) :
    cbCount (writeCircularBuffer buf d).1 = cbCount buf + 1 := by
  have hw2 := write_wf buf d hw
  have hnf : cbCount buf ≠ buf.size - 1 := fun h => (full_iff buf hw).2 h hf
  have hc := cbCount_eq buf hw
  have hc2 := cbCount_eq _ hw2
  rw [write_eq buf d hw hf] at hc2 hw2 ⊢
  obtain ⟨hs, hh, ht⟩ := hw
  simp only [] at hc2
  rw [hc2]
  split at hc <;> split <;> split <;> omega

theorem write_contents (buf : CircularBuffer) (d : Nat) (hw : buf.WellFormed)
    (hf : circularBufferFull buf = 0) :
    cbContents (writeCircularBuffer buf d).1 = cbContents buf ++ [d] := by
  have hcnt := write_count buf d hw hf
  unfold cbContents
  rw [hcnt, List.range_succ, List.map_append]
  rw [write_eq buf d hw hf] at *
  simp only [List.map_cons, List.map_nil]
  congr 1
  · apply List.map_congr_left
    intro k hk
    rw [Function.update_noteq]
    exact index_below_count buf hw k (List.mem_range.1 hk)
  · rw [index_at_count buf hw, Function.update_same]

theorem read_count (buf : CircularBuffer) (hw : buf.WellFormed)
    (he : circularBufferEmpty buf = 0) :
    cbCount buf = cbCount (readCircularBuffer buf).2.1 + 1 := by
  have hw2 := read_wf buf hw
  have hne : cbCount buf ≠ 0 := fun h => (empty_iff buf hw).2 h he
  have hc := cbCount_eq buf hw
  have hc2 := cbCount_eq _ hw2
  rw [read_eq buf hw he] at hc2 hw2 ⊢
  obtain ⟨hs, hh, ht⟩ := hw
  simp only [] at hc2
  rw [hc2]
  split at hc <;> split <;> split <;> omega

theorem read_contents (buf : CircularBuffer) (hw : buf.WellFormed)
    (he : circularBufferEmpty buf = 0) :
    cbContents buf =
      (readCircularBuffer buf).1 :: cbContents (readCircularBuffer buf).2.1 := by
  have hcnt := read_count buf hw he
  unfold cbContents
  rw [hcnt, List.range_succ_eq_map, List.map_cons, List.map_map]
  rw [read_eq buf hw he] at *
  obtain ⟨hs, hh, ht⟩ := hw
  simp only [Nat.add_zero, Nat.mod_eq_of_lt ht]
  congr 1
  apply List.map_congr_left
  intro k _
  simp only [Function.comp_apply]
  congr 1
  split
  · have : buf.tail + 1 = buf.size := by omega
    rw [Nat.zero_add, show buf.tail + Nat.succ k = buf.size + k by omega,
      Nat.add_mod_left]
  · congr 1
    omega

theorem write_full_eq (buf : CircularBuffer) (d : Nat)
    (hf : circularBufferFull buf ≠ 0) :
    writeCircularBuffer buf d = (buf, CircularBufferError.BUFFER_OVERFLOW) := by
  unfold writeCircularBuffer
  simp only [ne_eq, hf, not_false_eq_true, if_true]

theorem read_empty_eq (buf : CircularBuffer)
    (he : circularBufferEmpty buf ≠ 0) :
    readCircularBuffer buf = (0, buf, CircularBufferError.BUFFER_UNDERFLOW) := by
  unfold readCircularBuffer
  simp only [ne_eq, he, not_false_eq_true, if_true]

theorem cbContents_length (buf : CircularBuffer) :
    (cbContents buf).length = cbCount buf := by
  unfold cbContents
  rw [List.length_map, List.length_range]

theorem write_size (buf : CircularBuffer) (d : Nat) :
    (writeCircularBuffer buf d).1.size = buf.size := by
  unfold writeCircularBuffer
  split <;> rfl

theorem write_tail (buf : CircularBuffer) (d : Nat) :
    (writeCircularBuffer buf d).1.tail = buf.tail := by
  unfold writeCircularBuffer
  split <;> rfl

theorem read_size (buf : CircularBuffer) :
    (readCircularBuffer buf).2.1.size = buf.size := by
  unfold readCircularBuffer
  split <;> rfl

theorem runCalls_invariant (cs : List BufferCall) :
    ∀ (buf : CircularBuffer) (acc ret : List Nat),
      buf.WellFormed → acc = ret ++ cbContents buf →
      (runCalls buf cs acc ret).1.WellFormed ∧
      (runCalls buf cs acc ret).1.size = buf.size ∧
      (runCalls buf cs acc ret).2.1 =
        (runCalls buf cs acc ret).2.2 ++ cbContents (runCalls buf cs acc ret).1 := by
  induction cs with
  | nil =>
    intro buf acc ret hw h
    exact ⟨hw, rfl, h⟩
  | cons c cs ih =>
    intro buf acc ret hw h
    cases c with
    | write d =>
      simp only [runCalls]
      have hw2 := write_wf buf d hw
      have hsz := write_size buf d
      by_cases hf : circularBufferFull buf = 0
      · have hcont := write_contents buf d hw hf
        have herr : (writeCircularBuffer buf d).2 = CircularBufferError.NO_ERROR := by
          rw [write_eq buf d hw hf]
        rw [herr, if_pos rfl]
        obtain ⟨h1, h2, h3⟩ := ih (writeCircularBuffer buf d).1 (acc ++ [d]) ret hw2
          (by rw [hcont, h, List.append_assoc])
        exact ⟨h1, h2.trans hsz, h3⟩
      · rw [write_full_eq buf d hf] at hw2 hsz ⊢
        simp only [reduceCtorEq, if_false]
        exact ih buf acc ret hw h
    | read =>
      simp only [runCalls]
      have hw2 := read_wf buf hw
      have hsz := read_size buf
      by_cases he : circularBufferEmpty buf = 0
      · have hcont := read_contents buf hw he
        have herr : (readCircularBuffer buf).2.2 = CircularBufferError.NO_ERROR := by
          rw [read_eq buf hw he]
        rw [herr, if_pos rfl]
        obtain ⟨h1, h2, h3⟩ := ih (readCircularBuffer buf).2.1 acc
          (ret ++ [(readCircularBuffer buf).1]) hw2
          (by rw [h, hcont, List.append_assoc]; rfl)
        exact ⟨h1, h2.trans hsz, h3⟩
      · rw [read_empty_eq buf he] at hw2 hsz ⊢
        simp only [reduceCtorEq, if_false]
        exact ih buf acc ret hw h

theorem cbContents_of_empty (buf : CircularBuffer) (hw : buf.WellFormed)
    (h : buf.head = buf.tail) : cbContents buf = [] := by
  have hc : cbCount buf = 0 := by
    have := cbCount_eq buf hw
    rw [this, h]
    simp
  unfold cbContents
  rw [hc]
  rfl

theorem writeAll_spec (bytes : List Nat) :
    ∀ (buf : CircularBuffer), buf.WellFormed → bytes.length ≤ cbFree buf →
      (writeAll buf bytes).1.WellFormed ∧
      (writeAll buf bytes).1.size = buf.size ∧
      (writeAll buf bytes).1.tail = buf.tail ∧
      cbContents (writeAll buf bytes).1 = cbContents buf ++ bytes ∧
      (writeAll buf bytes).2 =
        List.replicate bytes.length CircularBufferError.NO_ERROR := by
  induction bytes with
  | nil =>
    intro buf hw _
    exact ⟨hw, rfl, rfl, (List.append_nil _).symm, rfl⟩
  | cons d ds ih =>
    intro buf hw hlen
    have hcl := cbCount_lt buf hw
    simp only [List.length_cons, cbFree] at hlen
    have hf : circularBufferFull buf = 0 := by
      by_contra hne
      have := (full_iff buf hw).1 hne
      omega
    have hw2 := write_wf buf d hw
    have hcnt := write_count buf d hw hf
    have hcont := write_contents buf d hw hf
    have hsz := write_size buf d
    have htl := write_tail buf d
    have herr : (writeCircularBuffer buf d).2 = CircularBufferError.NO_ERROR := by
      rw [write_eq buf d hw hf]
    obtain ⟨h1, h2, h3, h4, h5⟩ := ih (writeCircularBuffer buf d).1 hw2
      (by unfold cbFree; rw [hsz, hcnt]; omega)
    simp only [writeAll]
    refine ⟨h1, h2.trans hsz, h3.trans htl, ?_, ?_⟩
    · rw [h4, hcont, List.append_assoc]
      rfl
    · rw [h5, herr]
      rfl

theorem readN_spec (n : Nat) :
    ∀ (buf : CircularBuffer), buf.WellFormed → n ≤ cbCount buf →
      (readN buf n).1.WellFormed ∧
      (readN buf n).2.1 = (cbContents buf).take n ∧
      cbContents (readN buf n).1 = (cbContents buf).drop n ∧
      (readN buf n).2.2 = List.replicate n CircularBufferError.NO_ERROR := by
  induction n with
  | zero =>
    intro buf hw _
    exact ⟨hw, rfl, rfl, rfl⟩
  | succ n ih =>
    intro buf hw hn
    have he : circularBufferEmpty buf = 0 := by
      by_contra hne
      have := (empty_iff buf hw).1 hne
      omega
    have hw2 := read_wf buf hw
    have hcnt := read_count buf hw he
    have hcont := read_contents buf hw he
    have herr : (readCircularBuffer buf).2.2 = CircularBufferError.NO_ERROR := by
      rw [read_eq buf hw he]
    obtain ⟨h1, h2, h3, h4⟩ := ih (readCircularBuffer buf).2.1 hw2 (by omega)
    simp only [readN]
    refine ⟨h1, ?_, ?_, ?_⟩
    · rw [hcont, List.take_succ_cons, h2]
    · rw [hcont, List.drop_succ_cons, h3]
    · rw [h4, herr]
      rfl

/-! ## Ring buffer claims -/

/-- C1: for every capacity `C ≥ 1` (a `uint16_t`) and every finite sequence of
`writeCircularBuffer` / `readCircularBuffer` calls on a buffer that starts
empty (`head == tail < C`), the bytes returned by the successful reads are a
prefix of the bytes accepted by the successful writes, and the number of bytes
accepted and not yet read is at most `C - 1`.  Holding for every sequence, the
bound holds after every call of a sequence. -/
theorem C1_fifo_order_and_capacity (C : Nat) (hC1 : 1 ≤ C) (hC : C < 65536)
    (buf : CircularBuffer) (hsize : buf.size = C) (hempty : buf.head = buf.tail)
    (hlt : buf.tail < C) (calls : List BufferCall) :
    (runCalls buf calls [] []).2.2 <+: (runCalls buf calls [] []).2.1 ∧
    (runCalls buf calls [] []).2.1.length - (runCalls buf calls [] []).2.2.length
      ≤ C - 1 := by
  have hw : buf.WellFormed := ⟨by omega, by omega, by omega⟩
  obtain ⟨h1, h2, h3⟩ := runCalls_invariant calls buf [] [] hw
    (by rw [cbContents_of_empty buf hw hempty]; rfl)
  have hcl := cbCount_lt _ h1
  constructor
  · exact ⟨_, h3.symm⟩
  · rw [h3, List.length_append, cbContents_length]
    omega

/-- Witness of C1 on a 4-slot buffer: five writes, of which the fourth meets a
full buffer, interleaved with three reads, of which the last meets an empty
buffer. -/
theorem C1_fifo_order_and_capacity_witness :
    (1 ≤ 4 ∧ 4 < 65536 ∧ exampleBuffer.size = 4 ∧
      exampleBuffer.head = exampleBuffer.tail ∧ exampleBuffer.tail < 4) ∧
    (runCalls exampleBuffer
        [.write 7, .write 8, .write 9, .write 10, .read, .write 11, .read, .read,
          .read, .read] [] []).2.1 = [7, 8, 9, 11] ∧
    (runCalls exampleBuffer
        [.write 7, .write 8, .write 9, .write 10, .read, .write 11, .read, .read,
          .read, .read] [] []).2.2 = [7, 8, 9, 11] ∧
    ((runCalls exampleBuffer
        [.write 7, .write 8, .write 9, .write 10, .read, .write 11, .read, .read,
          .read, .read] [] []).2.2 <+:
      (runCalls exampleBuffer
        [.write 7, .write 8, .write 9, .write 10, .read, .write 11, .read, .read,
          .read, .read] [] []).2.1 ∧
     (runCalls exampleBuffer
        [.write 7, .write 8, .write 9, .write 10, .read, .write 11, .read, .read,
          .read, .read] [] []).2.1.length -
      (runCalls exampleBuffer
        [.write 7, .write 8, .write 9, .write 10, .read, .write 11, .read, .read,
          .read, .read] [] []).2.2.length ≤ 4 - 1) :=
  ⟨⟨by decide, by decide, rfl, rfl, by decide⟩, by decide, by decide,
    C1_fifo_order_and_capacity 4 (by decide) (by decide) exampleBuffer rfl rfl
      (by decide) _⟩

/-- C2: a failed ring-buffer operation changes nothing.  When
`circularBufferFull(buf)` is nonzero, `writeCircularBuffer` stores
`BUFFER_OVERFLOW` through `error` and returns the buffer as it was (head, tail
and every storage byte); when `circularBufferEmpty(buf)` is nonzero,
`readCircularBuffer` stores `BUFFER_UNDERFLOW`, returns `0x00` and returns the
buffer as it was. -/
theorem C2_failed_operations_atomic (buf : CircularBuffer) (data : Nat) :
    (circularBufferFull buf ≠ 0 →
      writeCircularBuffer buf data = (buf, CircularBufferError.BUFFER_OVERFLOW)) ∧
    (circularBufferEmpty buf ≠ 0 →
      readCircularBuffer buf = (0x00, buf, CircularBufferError.BUFFER_UNDERFLOW)) :=
  ⟨write_full_eq buf data, read_empty_eq buf⟩

/-- Witness of C2: a write on a full buffer and a read on an empty one. -/
theorem C2_failed_operations_atomic_witness :
    (circularBufferFull exampleFullBuffer ≠ 0 ∧
      writeCircularBuffer exampleFullBuffer 0x41 =
        (exampleFullBuffer, CircularBufferError.BUFFER_OVERFLOW)) ∧
    (circularBufferEmpty exampleBuffer ≠ 0 ∧
      readCircularBuffer exampleBuffer =
        (0x00, exampleBuffer, CircularBufferError.BUFFER_UNDERFLOW)) :=
  ⟨⟨by decide, (C2_failed_operations_atomic exampleFullBuffer 0x41).1 (by decide)⟩,
    ⟨by decide, (C2_failed_operations_atomic exampleBuffer 0).2 (by decide)⟩⟩

/-- C3: round trip.  On a buffer of capacity `C = buf.size` with
`head == tail` at any index below `C`, writing a sequence of `N ≤ C - 1` bytes
with `N` calls of `writeCircularBuffer` and then calling `readCircularBuffer`
`N` times reports `NO_ERROR` on every call, returns the sequence in its
original order, and leaves `circularBufferEmpty(buf)` nonzero. -/
theorem C3_round_trip (buf : CircularBuffer) (hC : buf.size < 65536)
    (hempty : buf.head = buf.tail) (hlt : buf.head < buf.size)
    (bytes : List Nat) (hN : bytes.length ≤ buf.size - 1) :
    (writeAll buf bytes).2 =
      List.replicate bytes.length CircularBufferError.NO_ERROR ∧
    (readN (writeAll buf bytes).1 bytes.length).2.2 =
      List.replicate bytes.length CircularBufferError.NO_ERROR ∧
    (readN (writeAll buf bytes).1 bytes.length).2.1 = bytes ∧
    circularBufferEmpty (readN (writeAll buf bytes).1 bytes.length).1 ≠ 0 := by
  have hw : buf.WellFormed := ⟨hC, hlt, by omega⟩
  have hnil := cbContents_of_empty buf hw hempty
  have hc0 : cbCount buf = 0 := by rw [← cbContents_length, hnil]; rfl
  obtain ⟨w1, _, _, w4, w5⟩ := writeAll_spec bytes buf hw
    (by unfold cbFree; rw [hc0]; exact hN)
  rw [hnil, List.nil_append] at w4
  have hcnt : cbCount (writeAll buf bytes).1 = bytes.length := by
    rw [← cbContents_length, w4]
  obtain ⟨r1, r2, r3, r4⟩ := readN_spec bytes.length (writeAll buf bytes).1 w1
    (by rw [hcnt])
  rw [w4] at r2 r3
  refine ⟨w5, r4, ?_, ?_⟩
  · rw [r2, List.take_length]
  · rw [empty_iff _ r1, ← cbContents_length, r3, List.drop_length]
    rfl

/-- Witness of C3: three bytes through the 4-slot buffer whose indices start
at 1, so head and tail both wrap. -/
theorem C3_round_trip_witness :
    (exampleBuffer.size < 65536 ∧ exampleBuffer.head = exampleBuffer.tail ∧
      exampleBuffer.head < exampleBuffer.size ∧
      [0x61, 0x62, 0x63].length ≤ exampleBuffer.size - 1) ∧
    (readN (writeAll exampleBuffer [0x61, 0x62, 0x63]).1 3).1.head = 0 ∧
    (readN (writeAll exampleBuffer [0x61, 0x62, 0x63]).1 3).1.tail = 0 ∧
    ((writeAll exampleBuffer [0x61, 0x62, 0x63]).2 =
        List.replicate 3 CircularBufferError.NO_ERROR ∧
      (readN (writeAll exampleBuffer [0x61, 0x62, 0x63]).1 3).2.2 =
        List.replicate 3 CircularBufferError.NO_ERROR ∧
      (readN (writeAll exampleBuffer [0x61, 0x62, 0x63]).1 3).2.1 =
        [0x61, 0x62, 0x63] ∧
      circularBufferEmpty (readN (writeAll exampleBuffer [0x61, 0x62, 0x63]).1 3).1
        ≠ 0) :=
  ⟨⟨by decide, rfl, by decide, by decide⟩, by decide, by decide,
    C3_round_trip exampleBuffer (by decide) rfl (by decide) [0x61, 0x62, 0x63]
      (by decide)⟩

/-! ## UART claims -/

theorem receive_keeps_transmit (s : UARTState) :
    (UARTISR_receive s).transmitBuffer = s.transmitBuffer ∧
    (UARTISR_receive s).TXIE = s.TXIE ∧ (UARTISR_receive s).TXREG = s.TXREG ∧
    (UARTISR_receive s).TXIF = s.TXIF := by
  unfold UARTISR_receive
  split
  · split <;> exact ⟨rfl, rfl, rfl, rfl⟩
  · exact ⟨rfl, rfl, rfl, rfl⟩

theorem transmit_keeps_receive (s : UARTState) :
    (UARTISR_transmit s).receiveBuffer = s.receiveBuffer ∧
    (UARTISR_transmit s).RCIE = s.RCIE ∧ (UARTISR_transmit s).RCIF = s.RCIF ∧
    (UARTISR_transmit s).RCREG = s.RCREG := by
  unfold UARTISR_transmit
  split
  · split <;> exact ⟨rfl, rfl, rfl, rfl⟩
  · exact ⟨rfl, rfl, rfl, rfl⟩

theorem next_index_mod (i n : Nat) (hi : i < n) :
    (if i + 1 ≥ n then 0 else i + 1) = (i + 1) % n := by
  split
  · have : i + 1 = n := by omega
    rw [this, Nat.mod_self]
  · rw [Nat.mod_eq_of_lt (by omega)]

/-- C4: `writeUART` on the 128-slot transmit buffer.  When the buffer is full
the error slot receives `0x01` and the whole state, in particular the transmit
buffer and `TXIE`, is unchanged; otherwise the byte is stored at `head`, head
advances by one modulo 128, tail is unchanged and `TXIE` is 1 afterwards,
whatever it was before. -/
theorem C4_writeUART (s : UARTState) (data error : Nat)
    (hsize : s.transmitBuffer.size = TRANSMIT_BUFFER_SIZE)
    (hh : s.transmitBuffer.head < TRANSMIT_BUFFER_SIZE) :
    (circularBufferFull s.transmitBuffer ≠ 0 →
      (writeUART s data error).2 = 0x01 ∧ (writeUART s data error).1 = s) ∧
    (circularBufferFull s.transmitBuffer = 0 →
      (writeUART s data error).1.transmitBuffer.base =
        Function.update s.transmitBuffer.base s.transmitBuffer.head data ∧
      (writeUART s data error).1.transmitBuffer.head =
        (s.transmitBuffer.head + 1) % 128 ∧
      (writeUART s data error).1.transmitBuffer.tail = s.transmitBuffer.tail ∧
      (writeUART s data error).1.TXIE = true) := by
  constructor
  · intro hf
    unfold writeUART
    rw [write_full_eq _ data hf]
    exact ⟨rfl, rfl⟩
  · intro hf
    have hlt : s.transmitBuffer.head + 1 < 65536 := by
      unfold TRANSMIT_BUFFER_SIZE at hh
      omega
    have hw : writeCircularBuffer s.transmitBuffer data =
        ({ s.transmitBuffer with
            base := Function.update s.transmitBuffer.base s.transmitBuffer.head data,
            head := if s.transmitBuffer.head + 1 ≥ s.transmitBuffer.size then 0
              else s.transmitBuffer.head + 1 },
          CircularBufferError.NO_ERROR) := by
      unfold writeCircularBuffer
      simp only [hf, ne_eq, not_true_eq_false, if_false]
      rw [Nat.mod_eq_of_lt hlt]
    unfold writeUART
    rw [hw]
    refine ⟨rfl, ?_, rfl, rfl⟩
    show (if s.transmitBuffer.head + 1 ≥ s.transmitBuffer.size then 0
      else s.transmitBuffer.head + 1) = _
    rw [hsize]
    exact next_index_mod _ _ hh

/-- Witness of C4: a write into the full transmit buffer, and a write at head
127 (which wraps to 0) with `TXIE` already set. -/
theorem C4_writeUART_witness :
    (circularBufferFull exampleUARTTxFull.transmitBuffer ≠ 0 ∧
      (writeUART exampleUARTTxFull 0x41 0).2 = 0x01 ∧
      (writeUART exampleUARTTxFull 0x41 0).1 = exampleUARTTxFull) ∧
    (circularBufferFull
        { exampleUARTTxFull with
          transmitBuffer := { exampleUARTTxFull.transmitBuffer with
            head := 127, tail := 5 } }.transmitBuffer = 0 ∧
      (writeUART { exampleUARTTxFull with
          transmitBuffer := { exampleUARTTxFull.transmitBuffer with
            head := 127, tail := 5 } } 0x41 0).1.transmitBuffer.head = (127 + 1) % 128 ∧
      (writeUART { exampleUARTTxFull with
          transmitBuffer := { exampleUARTTxFull.transmitBuffer with
            head := 127, tail := 5 } } 0x41 0).1.TXIE = true) :=
  ⟨⟨by decide,
      (C4_writeUART exampleUARTTxFull 0x41 0 rfl (by decide)).1 (by decide)⟩,
    ⟨by decide,
      ((C4_writeUART _ 0x41 0 rfl (by decide)).2 (by decide)).2.1,
      ((C4_writeUART _ 0x41 0 rfl (by decide)).2 (by decide)).2.2.2⟩⟩

/-- C5, evaluated on the code: with the transmit buffer empty and the caller's
error slot holding `0x01` on entry, `writeUART(0x41, &error)` queues the byte
and sets `TXIE`, and the slot still holds `0x01` on return, although the
buffer was not full. -/
theorem C5_error_slot_left_stale :
    circularBufferFull (exampleUART true false 0).transmitBuffer = 0 ∧
    cbContents (writeUART (exampleUART true false 0) 0x41 0x01).1.transmitBuffer
      = [0x41] ∧
    (writeUART (exampleUART true false 0) 0x41 0x01).1.TXIE = true ∧
    (writeUART (exampleUART true false 0) 0x41 0x01).2 = 0x01 := by
  decide

/-- C6: `readUART` on the 32-slot receive buffer.  When the buffer is empty it
returns `0x00`, stores `0x01` through `error` and leaves the state unchanged;
otherwise it returns the byte at `tail`, which is the oldest unread byte,
advances tail by one modulo 32, leaves head and storage unchanged and stores
`0x00` through `error`.  The embedding is a total function without recursion:
the call returns in both cases. -/
theorem C6_readUART (s : UARTState)
    (hsize : s.receiveBuffer.size = RECEIVE_BUFFER_SIZE)
    (hh : s.receiveBuffer.head < RECEIVE_BUFFER_SIZE)
    (ht : s.receiveBuffer.tail < RECEIVE_BUFFER_SIZE) :
    (circularBufferEmpty s.receiveBuffer ≠ 0 → readUART s = (0x00, s, 0x01)) ∧
    (circularBufferEmpty s.receiveBuffer = 0 →
      (readUART s).1 = s.receiveBuffer.base s.receiveBuffer.tail ∧
      cbContents s.receiveBuffer =
        (readUART s).1 :: cbContents (readUART s).2.1.receiveBuffer ∧
      (readUART s).2.1.receiveBuffer.tail = (s.receiveBuffer.tail + 1) % 32 ∧
      (readUART s).2.1.receiveBuffer.head = s.receiveBuffer.head ∧
      (readUART s).2.1.receiveBuffer.base = s.receiveBuffer.base ∧
      (readUART s).2.2 = 0x00) := by
  have hw : s.receiveBuffer.WellFormed := by
    unfold RECEIVE_BUFFER_SIZE at hsize hh ht
    exact ⟨by omega, by omega, by omega⟩
  constructor
  · intro he
    unfold readUART
    rw [read_empty_eq _ he]
    rfl
  · intro he
    have hc := read_contents s.receiveBuffer hw he
    have hr := read_eq s.receiveBuffer hw he
    unfold readUART
    rw [hr] at hc ⊢
    refine ⟨rfl, hc, ?_, rfl, rfl, rfl⟩
    show (if s.receiveBuffer.tail + 1 ≥ s.receiveBuffer.size then 0
      else s.receiveBuffer.tail + 1) = _
    rw [hsize]
    exact next_index_mod _ _ ht

/-- Witness of C6: a read from the empty receive buffer, and a read at tail 31
(which wraps to 0). -/
theorem C6_readUART_witness :
    (circularBufferEmpty (exampleUART false false 0).receiveBuffer ≠ 0 ∧
      readUART (exampleUART false false 0) = (0x00, exampleUART false false 0, 0x01)) ∧
    (circularBufferEmpty
        { exampleUARTRxFull with
          receiveBuffer := { exampleUARTRxFull.receiveBuffer with
            head := 2, tail := 31 } }.receiveBuffer = 0 ∧
      (readUART { exampleUARTRxFull with
          receiveBuffer := { exampleUARTRxFull.receiveBuffer with
            head := 2, tail := 31 } }).1 = 32 ∧
      (readUART { exampleUARTRxFull with
          receiveBuffer := { exampleUARTRxFull.receiveBuffer with
            head := 2, tail := 31 } }).2.1.receiveBuffer.tail = (31 + 1) % 32 ∧
      (readUART { exampleUARTRxFull with
          receiveBuffer := { exampleUARTRxFull.receiveBuffer with
            head := 2, tail := 31 } }).2.2 = 0x00) :=
  ⟨⟨by decide,
      (C6_readUART (exampleUART false false 0) rfl (by decide) (by decide)).1
        (by decide)⟩,
    ⟨by decide,
      ((C6_readUART _ rfl (by decide) (by decide)).2 (by decide)).1,
      ((C6_readUART _ rfl (by decide) (by decide)).2 (by decide)).2.2.1,
      ((C6_readUART _ rfl (by decide) (by decide)).2 (by decide)).2.2.2.2.2⟩⟩

theorem transmit_nonempty_eq (s : UARTState) (hie : s.TXIE = true)
    (hif : s.TXIF = true) (he : circularBufferEmpty s.transmitBuffer = 0) :
    UARTISR_transmit s =
      { s with transmitBuffer := (readCircularBuffer s.transmitBuffer).2.1,
               TXREG := (readCircularBuffer s.transmitBuffer).1 } := by
  unfold UARTISR_transmit
  simp only [hie, hif, he, Bool.and_self, if_true]

theorem transmit_empty_eq (s : UARTState) (hie : s.TXIE = true)
    (hif : s.TXIF = true) (he : circularBufferEmpty s.transmitBuffer ≠ 0) :
    UARTISR_transmit s = { s with TXIE := false } := by
  unfold UARTISR_transmit
  simp only [hie, hif, he, Bool.and_self, if_true, if_false]

theorem isr_nonempty (s : UARTState)
    (hw : s.transmitBuffer.WellFormed)
    (hie : s.TXIE = true) (hif : s.TXIF = true)
    (he : circularBufferEmpty s.transmitBuffer = 0) :
    (UARTISR s).TXREG = s.transmitBuffer.base s.transmitBuffer.tail ∧
    cbContents s.transmitBuffer = (UARTISR s).TXREG :: cbContents (UARTISR s).transmitBuffer ∧
    (UARTISR s).transmitBuffer.tail =
      (s.transmitBuffer.tail + 1) % s.transmitBuffer.size ∧
    (UARTISR s).transmitBuffer.head = s.transmitBuffer.head ∧
    (UARTISR s).transmitBuffer.base = s.transmitBuffer.base ∧
    (UARTISR s).TXIE = true := by
  obtain ⟨k1, k2, k3, _⟩ := receive_keeps_transmit (UARTISR_transmit s)
  have hc := read_contents s.transmitBuffer hw he
  have hr := read_eq s.transmitBuffer hw he
  unfold UARTISR
  rw [k1, k2, k3, transmit_nonempty_eq s hie hif he]
  rw [hr] at hc ⊢
  exact ⟨rfl, hc, next_index_mod _ _ hw.2.2, rfl, rfl, hie⟩

theorem isr_empty (s : UARTState) (hie : s.TXIE = true) (hif : s.TXIF = true)
    (he : circularBufferEmpty s.transmitBuffer ≠ 0) :
    (UARTISR s).TXIE = false ∧ (UARTISR s).TXREG = s.TXREG ∧
    (UARTISR s).transmitBuffer = s.transmitBuffer := by
  obtain ⟨k1, k2, k3, _⟩ := receive_keeps_transmit (UARTISR_transmit s)
  unfold UARTISR
  rw [k1, k2, k3, transmit_empty_eq s hie hif he]
  exact ⟨rfl, rfl, rfl⟩

theorem drain_single (s1 : UARTState) (b : Nat)
    (hw1 : s1.transmitBuffer.WellFormed)
    (hone : cbContents s1.transmitBuffer = [b])
    (hie : s1.TXIE = true) (hif : s1.TXIF = true) :
    (UARTISR s1).TXREG = b ∧
    circularBufferEmpty (UARTISR s1).transmitBuffer ≠ 0 ∧
    (UARTISR s1).TXIE = true ∧
    (UARTISR { UARTISR s1 with TXIF := true }).TXIE = false ∧
    (UARTISR { UARTISR s1 with TXIF := true }).TXREG = b ∧
    (UARTISR { UARTISR s1 with TXIF := true }).transmitBuffer =
      (UARTISR s1).transmitBuffer := by
  have hne1 : circularBufferEmpty s1.transmitBuffer = 0 := by
    by_contra hne
    have h0 := (empty_iff _ hw1).1 hne
    rw [← cbContents_length, hone] at h0
    simp at h0
  obtain ⟨_, a2, _, _, _, a6⟩ := isr_nonempty s1 hw1 hie hif hne1
  rw [hone] at a2
  have hreg : (UARTISR s1).TXREG = b := (List.head_eq_of_cons_eq a2).symm
  have hnil2 : cbContents (UARTISR s1).transmitBuffer = [] :=
    (List.tail_eq_of_cons_eq a2).symm
  have hw2 : (UARTISR s1).transmitBuffer.WellFormed := by
    have hr := read_wf s1.transmitBuffer hw1
    obtain ⟨k1, _, _, _⟩ := receive_keeps_transmit (UARTISR_transmit s1)
    unfold UARTISR
    rw [k1, transmit_nonempty_eq s1 hie hif hne1]
    exact hr
  have he2 : circularBufferEmpty (UARTISR s1).transmitBuffer ≠ 0 := by
    rw [empty_iff _ hw2, ← cbContents_length, hnil2]
    rfl
  obtain ⟨c1, c2, c3⟩ := isr_empty { UARTISR s1 with TXIF := true } a6 rfl he2
  exact ⟨hreg, he2, a6, c1, c2.trans hreg, c3⟩

/-- C7: the transmit side of `UARTISR`, on the 128-slot transmit buffer with
`TXIE` and `TXIF` both set.  If the buffer is non-empty the call writes the
oldest queued byte (the byte at `tail`) to `TXREG`, removes exactly that byte
(tail advances by one modulo 128, head and storage unchanged) and leaves
`TXIE` set; if the buffer is empty the call clears `TXIE` and leaves `TXREG`
and the transmit buffer unchanged.  In particular, from an empty transmit
buffer, `writeUART(b)` followed by one such call puts `b` in `TXREG` and
empties the buffer with `TXIE` still set, and a second such call clears `TXIE`
and leaves `TXREG` and the buffer as they were. -/
theorem C7_transmit_ready (s : UARTState)
    (hsize : s.transmitBuffer.size = TRANSMIT_BUFFER_SIZE)
    (hh : s.transmitBuffer.head < TRANSMIT_BUFFER_SIZE)
    (ht : s.transmitBuffer.tail < TRANSMIT_BUFFER_SIZE) :
    (s.TXIE = true → s.TXIF = true → circularBufferEmpty s.transmitBuffer = 0 →
      (UARTISR s).TXREG = s.transmitBuffer.base s.transmitBuffer.tail ∧
      cbContents s.transmitBuffer =
        (UARTISR s).TXREG :: cbContents (UARTISR s).transmitBuffer ∧
      (UARTISR s).transmitBuffer.tail = (s.transmitBuffer.tail + 1) % 128 ∧
      (UARTISR s).transmitBuffer.head = s.transmitBuffer.head ∧
      (UARTISR s).transmitBuffer.base = s.transmitBuffer.base ∧
      (UARTISR s).TXIE = true) ∧
    (s.TXIE = true → s.TXIF = true → circularBufferEmpty s.transmitBuffer ≠ 0 →
      (UARTISR s).TXIE = false ∧ (UARTISR s).TXREG = s.TXREG ∧
      (UARTISR s).transmitBuffer = s.transmitBuffer) ∧
    (circularBufferEmpty s.transmitBuffer ≠ 0 → ∀ b error : Nat,
      (UARTISR { (writeUART s b error).1 with TXIF := true }).TXREG = b ∧
      circularBufferEmpty
        (UARTISR { (writeUART s b error).1 with TXIF := true }).transmitBuffer ≠ 0 ∧
      (UARTISR { (writeUART s b error).1 with TXIF := true }).TXIE = true ∧
      (UARTISR { UARTISR { (writeUART s b error).1 with TXIF := true }
          with TXIF := true }).TXIE = false ∧
      (UARTISR { UARTISR { (writeUART s b error).1 with TXIF := true }
          with TXIF := true }).TXREG = b ∧
      (UARTISR { UARTISR { (writeUART s b error).1 with TXIF := true }
          with TXIF := true }).transmitBuffer =
        (UARTISR { (writeUART s b error).1 with TXIF := true }).transmitBuffer) := by
  have hw : s.transmitBuffer.WellFormed := by
    unfold TRANSMIT_BUFFER_SIZE at hsize hh ht
    exact ⟨by omega, by omega, by omega⟩
  refine ⟨?_, isr_empty s, ?_⟩
  · intro hie hif he
    have h := isr_nonempty s hw hie hif he
    rw [hsize] at h
    exact h
  · intro he b error
    have hc0 : cbCount s.transmitBuffer = 0 := (empty_iff _ hw).1 he
    have hnf : circularBufferFull s.transmitBuffer = 0 := by
      by_contra hne
      have := (full_iff _ hw).1 hne
      unfold TRANSMIT_BUFFER_SIZE at hsize
      omega
    have hnil : cbContents s.transmitBuffer = [] := by
      unfold cbContents
      rw [hc0]
      rfl
    have hwe := write_eq s.transmitBuffer b hw hnf
    have hw1 := write_wf s.transmitBuffer b hw
    have hcont1 := write_contents s.transmitBuffer b hw hnf
    rw [hnil, List.nil_append] at hcont1
    have hb1 : (writeUART s b error).1.transmitBuffer =
        (writeCircularBuffer s.transmitBuffer b).1 := by
      unfold writeUART
      rw [hwe]
      rfl
    have hie1 : (writeUART s b error).1.TXIE = true := by
      unfold writeUART
      rw [hwe]
      rfl
    exact drain_single { (writeUART s b error).1 with TXIF := true } b
      (by rw [show ({ (writeUART s b error).1 with TXIF := true } : UARTState).transmitBuffer
            = (writeUART s b error).1.transmitBuffer from rfl, hb1]; exact hw1)
      (by rw [show ({ (writeUART s b error).1 with TXIF := true } : UARTState).transmitBuffer
            = (writeUART s b error).1.transmitBuffer from rfl, hb1]; exact hcont1)
      hie1 rfl

/-- Witness of C7: a call on the full transmit buffer (tail 127 wraps to 0),
and the `writeUART` / two-interrupt scenario from the reset state. -/
theorem C7_transmit_ready_witness :
    (exampleUARTTxFull.TXIE = true ∧ exampleUARTTxFull.TXIF = true ∧
      circularBufferEmpty exampleUARTTxFull.transmitBuffer = 0 ∧
      (UARTISR exampleUARTTxFull).TXREG = 127 ∧
      (UARTISR exampleUARTTxFull).transmitBuffer.tail = (127 + 1) % 128) ∧
    (circularBufferEmpty (exampleUART false false 0).transmitBuffer ≠ 0 ∧
      (UARTISR { (writeUART (exampleUART false false 0) 0x41 0).1
          with TXIF := true }).TXREG = 0x41 ∧
      (UARTISR { UARTISR { (writeUART (exampleUART false false 0) 0x41 0).1
          with TXIF := true } with TXIF := true }).TXIE = false) :=
  ⟨⟨rfl, rfl, by decide,
      ((C7_transmit_ready exampleUARTTxFull rfl (by decide) (by decide)).1
        rfl rfl (by decide)).1,
      ((C7_transmit_ready exampleUARTTxFull rfl (by decide) (by decide)).1
        rfl rfl (by decide)).2.2.1⟩,
    ⟨by decide,
      ((C7_transmit_ready (exampleUART false false 0) rfl (by decide)
        (by decide)).2.2 (by decide) 0x41 0).1,
      ((C7_transmit_ready (exampleUART false false 0) rfl (by decide)
        (by decide)).2.2 (by decide) 0x41 0).2.2.2.1⟩⟩

theorem receive_notfull_eq (s : UARTState) (hie : s.RCIE = true)
    (hif : s.RCIF = true) (hf : circularBufferFull s.receiveBuffer = 0) :
    UARTISR_receive s =
      { s with receiveBuffer := (writeCircularBuffer s.receiveBuffer s.RCREG).1 } := by
  unfold UARTISR_receive
  simp only [hie, hif, hf, Bool.and_self, if_true]

theorem receive_full_eq (s : UARTState)
    (hf : circularBufferFull s.receiveBuffer ≠ 0) :
    UARTISR_receive s = s := by
  unfold UARTISR_receive
  simp only [hf, if_false, ite_self]

/-- C8: the receive side of `UARTISR`, on the 32-slot receive buffer with
`RCIE` and `RCIF` both set.  If the buffer is not full the byte in `RCREG` is
appended: stored at `head`, head advanced by one modulo 32, tail unchanged.
If the buffer is full the receive side changes nothing (the call does what
the transmit side alone does), so head, tail and storage of the receive
buffer are unchanged and the byte is dropped.  `UARTISR` returns nothing and
takes no error slot, so no error value reaches a caller. -/
theorem C8_receive_ready (s : UARTState)
    (hsize : s.receiveBuffer.size = RECEIVE_BUFFER_SIZE)
    (hh : s.receiveBuffer.head < RECEIVE_BUFFER_SIZE)
    (ht : s.receiveBuffer.tail < RECEIVE_BUFFER_SIZE)
    (hie : s.RCIE = true) (hif : s.RCIF = true) :
    (circularBufferFull s.receiveBuffer = 0 →
      (UARTISR s).receiveBuffer.base =
        Function.update s.receiveBuffer.base s.receiveBuffer.head s.RCREG ∧
      cbContents (UARTISR s).receiveBuffer = cbContents s.receiveBuffer ++ [s.RCREG] ∧
      (UARTISR s).receiveBuffer.head = (s.receiveBuffer.head + 1) % 32 ∧
      (UARTISR s).receiveBuffer.tail = s.receiveBuffer.tail) ∧
    (circularBufferFull s.receiveBuffer ≠ 0 →
      UARTISR s = UARTISR_transmit s ∧
      (UARTISR s).receiveBuffer = s.receiveBuffer) := by
  have hw : s.receiveBuffer.WellFormed := by
    unfold RECEIVE_BUFFER_SIZE at hsize hh ht
    exact ⟨by omega, by omega, by omega⟩
  obtain ⟨k1, k2, k3, k4⟩ := transmit_keeps_receive s
  constructor
  · intro hf
    have hc := write_contents s.receiveBuffer s.RCREG hw hf
    have he := write_eq s.receiveBuffer s.RCREG hw hf
    unfold UARTISR
    rw [receive_notfull_eq _ (k2.trans hie) (k3.trans hif) (by rw [k1]; exact hf)]
    show (writeCircularBuffer (UARTISR_transmit s).receiveBuffer
        (UARTISR_transmit s).RCREG).1.base = _ ∧
      cbContents (writeCircularBuffer (UARTISR_transmit s).receiveBuffer
        (UARTISR_transmit s).RCREG).1 = _ ∧
      (writeCircularBuffer (UARTISR_transmit s).receiveBuffer
        (UARTISR_transmit s).RCREG).1.head = _ ∧
      (writeCircularBuffer (UARTISR_transmit s).receiveBuffer
        (UARTISR_transmit s).RCREG).1.tail = _
    rw [k1, k4]
    refine ⟨by rw [he], hc, ?_, by rw [he]⟩
    rw [he]
    show (if s.receiveBuffer.head + 1 ≥ s.receiveBuffer.size then 0
      else s.receiveBuffer.head + 1) = _
    rw [hsize]
    exact next_index_mod _ _ hh
  · intro hf
    have h := receive_full_eq (UARTISR_transmit s) (by rw [k1]; exact hf)
    unfold UARTISR
    rw [h]
    exact ⟨rfl, k1⟩

/-- Witness of C8: a byte received at head 31 (which wraps to 0), and a byte
arriving while the receive buffer is full. -/
theorem C8_receive_ready_witness :
    (circularBufferFull
        { exampleUARTRxFull with
          receiveBuffer := { exampleUARTRxFull.receiveBuffer with
            tail := 7 } }.receiveBuffer = 0 ∧
      (UARTISR { exampleUARTRxFull with
          receiveBuffer := { exampleUARTRxFull.receiveBuffer with
            tail := 7 } }).receiveBuffer.head = (31 + 1) % 32 ∧
      (UARTISR { exampleUARTRxFull with
          receiveBuffer := { exampleUARTRxFull.receiveBuffer with
            tail := 7 } }).receiveBuffer.base 31 = 0x55) ∧
    (exampleUARTRxFull.RCIE = true ∧ exampleUARTRxFull.RCIF = true ∧
      circularBufferFull exampleUARTRxFull.receiveBuffer ≠ 0 ∧
      (UARTISR exampleUARTRxFull).receiveBuffer = exampleUARTRxFull.receiveBuffer) :=
  ⟨⟨by decide,
      ((C8_receive_ready _ rfl (by decide) (by decide) rfl rfl).1 (by decide)).2.2.1,
      by decide⟩,
    ⟨rfl, rfl, by decide,
      ((C8_receive_ready exampleUARTRxFull rfl (by decide) (by decide) rfl rfl).2
        (by decide)).2⟩⟩

theorem waitNotFull_of_not_full (fuel : Nat) (s : UARTState)
    (hf : circularBufferFull s.transmitBuffer = 0) :
    waitNotFull (fuel + 1) s = some s := by
  simp only [waitNotFull, hf, ne_eq, not_true_eq_false, if_false]

theorem range_map_shift (msg : Nat → Nat) (i n : Nat) :
    (List.range (n + 1)).map (fun k => msg (i + k)) =
      msg i :: (List.range n).map (fun k => msg (i + 1 + k)) := by
  rw [List.range_succ_eq_map, List.map_cons, List.map_map]
  congr 1
  apply List.map_congr_left
  intro k _
  simp only [Function.comp_apply]
  congr 1
  omega

theorem writeUARTMessageLoop_spec (n : Nat) :
    ∀ (fuel : Nat) (s : UARTState) (msg : Nat → Nat) (i error : Nat),
      s.transmitBuffer.WellFormed →
      (∀ k, k < n → msg (i + k) ≠ 0) → msg (i + n) = 0 →
      n ≤ cbFree s.transmitBuffer → n < fuel →
      ∃ s2 : UARTState,
        writeUARTMessageLoop fuel s msg i error = some (s2, error) ∧
        cbContents s2.transmitBuffer =
          cbContents s.transmitBuffer ++ (List.range n).map (fun k => msg (i + k)) ∧
        s2.transmitBuffer.tail = s.transmitBuffer.tail ∧
        s2.transmitBuffer.size = s.transmitBuffer.size ∧
        (1 ≤ n → s2.TXIE = true) ∧ (n = 0 → s2 = s) ∧
        s2.receiveBuffer = s.receiveBuffer ∧ s2.TXIF = s.TXIF ∧
        s2.RCIE = s.RCIE ∧ s2.RCIF = s.RCIF ∧ s2.TXREG = s.TXREG ∧
        s2.RCREG = s.RCREG := by
  induction n with
  | zero =>
    intro fuel s msg i error _ _ hz _ hfuel
    obtain ⟨f, rfl⟩ : ∃ f, fuel = f + 1 := ⟨fuel - 1, by omega⟩
    refine ⟨s, ?_, ?_, rfl, rfl, ?_, fun _ => rfl, rfl, rfl, rfl, rfl, rfl, rfl⟩
    · rw [Nat.add_zero] at hz
      simp only [writeUARTMessageLoop, hz, ne_eq, not_true_eq_false, if_false]
    · simp
    · intro h
      omega
  | succ n ih =>
    intro fuel s msg i error hw hnz hz hfree hfuel
    obtain ⟨f, rfl⟩ : ∃ f, fuel = f + 1 := ⟨fuel - 1, by omega⟩
    have hcl := cbCount_lt _ hw
    unfold cbFree at hfree
    have hnf : circularBufferFull s.transmitBuffer = 0 := by
      by_contra hne
      have := (full_iff _ hw).1 hne
      omega
    have h0 : msg i ≠ 0 := by
      have := hnz 0 (by omega)
      rwa [Nat.add_zero] at this
    have hw2 := write_wf s.transmitBuffer (msg i) hw
    have hcnt := write_count s.transmitBuffer (msg i) hw hnf
    have hcont := write_contents s.transmitBuffer (msg i) hw hnf
    have hsz := write_size s.transmitBuffer (msg i)
    have htl := write_tail s.transmitBuffer (msg i)
    have herr : (writeCircularBuffer s.transmitBuffer (msg i)).2 =
        CircularBufferError.NO_ERROR := by
      rw [write_eq _ _ hw hnf]
    obtain ⟨s2, e1, e2, e3, e4, e5, e6, e7, e8, e9, e10, e11, e12⟩ :=
      ih f { s with transmitBuffer := (writeCircularBuffer s.transmitBuffer (msg i)).1,
                    TXIE := true } msg (i + 1) error hw2
        (fun k hk => by
          have := hnz (k + 1) (by omega)
          rwa [show i + (k + 1) = i + 1 + k by omega] at this)
        (by rwa [show i + (n + 1) = i + 1 + n by omega] at hz)
        (by
          show n ≤ cbFree (writeCircularBuffer s.transmitBuffer (msg i)).1
          unfold cbFree
          rw [hsz, hcnt]
          omega)
        (by omega)
    refine ⟨s2, ?_, ?_, e3.trans htl, e4.trans hsz, fun _ => ?_, fun h => ?_,
      e7, e8, e9, e10, e11, e12⟩
    · rw [writeUARTMessageLoop]
      simp only [h0, ne_eq, not_false_eq_true, if_true,
        waitNotFull_of_not_full f s hnf, herr, not_true_eq_false, if_false]
      exact e1
    · rw [e2, range_map_shift]
      show cbContents (writeCircularBuffer s.transmitBuffer (msg i)).1 ++ _ = _
      rw [hcont, List.append_assoc]
      rfl
    · by_cases hn : n = 0
      · rw [e6 hn]
      · exact e5 (by omega)
    · omega

/-- C9: `writeUARTMessage` when no waiting is needed.  For a zero-terminated
message (`msg k ≠ 0` for `k < n`, `msg n = 0`) whose length `n` is at most the
number of free slots of the 128-slot transmit buffer, the call returns (every
fuel above `n` suffices), the `n` bytes are appended to the queued bytes in
message order and the terminator is not queued, tail and every other part of
the state are unchanged, `TXIE` is 1 when `n ≥ 1`, the state is unchanged when
`n = 0`, and the caller's error slot holds on return the value it held on
entry. -/
theorem C9_writeUARTMessage_no_wait (s : UARTState) (msg : Nat → Nat)
    (n error : Nat)
    (hsize : s.transmitBuffer.size = TRANSMIT_BUFFER_SIZE)
    (hh : s.transmitBuffer.head < TRANSMIT_BUFFER_SIZE)
    (ht : s.transmitBuffer.tail < TRANSMIT_BUFFER_SIZE)
    (hnz : ∀ k, k < n → msg k ≠ 0) (hz : msg n = 0)
    (hfree : n ≤ cbFree s.transmitBuffer) :
    ∀ fuel, n < fuel →
      ∃ s2 : UARTState,
        writeUARTMessage fuel s msg error = some (s2, error) ∧
        cbContents s2.transmitBuffer =
          cbContents s.transmitBuffer ++ (List.range n).map msg ∧
        s2.transmitBuffer.tail = s.transmitBuffer.tail ∧
        (1 ≤ n → s2.TXIE = true) ∧ (n = 0 → s2 = s) ∧
        s2.receiveBuffer = s.receiveBuffer ∧ s2.TXIF = s.TXIF ∧
        s2.RCIE = s.RCIE ∧ s2.RCIF = s.RCIF ∧ s2.TXREG = s.TXREG ∧
        s2.RCREG = s.RCREG := by
  intro fuel hfuel
  have hw : s.transmitBuffer.WellFormed := by
    unfold TRANSMIT_BUFFER_SIZE at hsize hh ht
    exact ⟨by omega, by omega, by omega⟩
  obtain ⟨s2, e1, e2, e3, _, e5, e6, e7, e8, e9, e10, e11, e12⟩ :=
    writeUARTMessageLoop_spec n fuel s msg 0 error hw
      (fun k hk => by rw [Nat.zero_add]; exact hnz k hk)
      (by rw [Nat.zero_add]; exact hz) hfree hfuel
  refine ⟨s2, e1, ?_, e3, e5, e6, e7, e8, e9, e10, e11, e12⟩
  rw [e2]
  congr 2
  funext k
  rw [Nat.zero_add]

/-- Witness of C9: the message "Hi" sent from the reset state with the error
slot holding 0. -/
theorem C9_writeUARTMessage_no_wait_witness :
    ((exampleUART false false 0).transmitBuffer.size = TRANSMIT_BUFFER_SIZE ∧
      (∀ k, k < 2 → exampleMessage k ≠ 0) ∧ exampleMessage 2 = 0 ∧
      2 ≤ cbFree (exampleUART false false 0).transmitBuffer) ∧
    (writeUARTMessage 3 (exampleUART false false 0) exampleMessage 0).map
        (fun r => (cbContents r.1.transmitBuffer, r.1.TXIE, r.2)) =
      some ([0x48, 0x69], true, 0) ∧
    (∃ s2 : UARTState,
      writeUARTMessage 3 (exampleUART false false 0) exampleMessage 0 = some (s2, 0) ∧
      cbContents s2.transmitBuffer =
        cbContents (exampleUART false false 0).transmitBuffer ++
          (List.range 2).map exampleMessage ∧
      s2.transmitBuffer.tail = (exampleUART false false 0).transmitBuffer.tail ∧
      (1 ≤ 2 → s2.TXIE = true) ∧ (2 = 0 → s2 = exampleUART false false 0) ∧
      s2.receiveBuffer = (exampleUART false false 0).receiveBuffer ∧
      s2.TXIF = (exampleUART false false 0).TXIF ∧
      s2.RCIE = (exampleUART false false 0).RCIE ∧
      s2.RCIF = (exampleUART false false 0).RCIF ∧
      s2.TXREG = (exampleUART false false 0).TXREG ∧
      s2.RCREG = (exampleUART false false 0).RCREG) :=
  ⟨⟨rfl, by decide, rfl, by decide⟩, by decide,
    C9_writeUARTMessage_no_wait (exampleUART false false 0) exampleMessage 2 0 rfl
      (by decide) (by decide) (by decide) rfl (by decide) 3 (by decide)⟩

/-! ## Stepper sequencer claims -/

/-- C10: postcondition of `startStepperMotor`, for every prior state and all
arguments: `previousDirection` is the direction held before the call,
`stepsToGo == distance`, `speed == min(targetSpeed, 0xCB00)` and `TMR1` holds
the same value, `direction == dir`, `TMR1IE` is set, and `currentStep` is
unchanged when `dir` equals the old direction, `(old + 1) mod 4` when it
differs and `dir` is `FORWARD`, and `(old - 1) mod 4` (computed on integers,
so 0 becomes 3) when it differs and `dir` is `BACKWARD`. -/
theorem C10_startStepperMotor_post (s : StepperState) (distance : Nat)
    (dir : StepperMotorDirection) (targetSpeed : Nat) :
    (startStepperMotor s distance dir targetSpeed).previousDirection = s.direction ∧
    (startStepperMotor s distance dir targetSpeed).stepsToGo = distance ∧
    (startStepperMotor s distance dir targetSpeed).speed = min targetSpeed 0xCB00 ∧
    (startStepperMotor s distance dir targetSpeed).TMR1 = min targetSpeed 0xCB00 ∧
    (startStepperMotor s distance dir targetSpeed).direction = dir ∧
    (startStepperMotor s distance dir targetSpeed).TMR1IE = true ∧
    ((startStepperMotor s distance dir targetSpeed).currentStep : Int) =
      (if dir = s.direction then (s.currentStep : Int)
       else match dir with
         | StepperMotorDirection.FORWARD => ((s.currentStep : Int) + 1) % 4
         | StepperMotorDirection.BACKWARD => ((s.currentStep : Int) - 1) % 4) := by
  obtain ⟨cs, stg, d0, pd, sp, pins, tmr, ie, fl, mem⟩ := s
  have hmin : ∀ x : Nat, x = min targetSpeed 0xCB00 ↔
      x = if targetSpeed > 0xCB00 then 0xCB00 else targetSpeed := by
    intro x
    split <;> omega
  simp only [hmin]
  cases dir <;> cases d0 <;> by_cases hsp : targetSpeed > 0xCB00 <;>
    simp [startStepperMotor, STEPPER_MOTOR_MAX_SPEED, hsp] <;> omega

/-! ## Helper lemmas on port bits and on the tick -/

theorem testBit_one_shift (b j : Nat) : (0x01 <<< b).testBit j = decide (j = b) := by
  rw [Nat.one_shiftLeft, Nat.testBit_two_pow]
  by_cases h : b = j <;> simp [h, eq_comm]

theorem testBit_bitNot16_one_shift (b j : Nat) (hb : b ≤ 7) (hj : j ≤ 7) :
    (bitNot16 (0x01 <<< b)).testBit j = decide (j ≠ b) := by
  have hlt : (0x01 <<< b) < 2 ^ 16 := by
    rw [Nat.one_shiftLeft]
    exact Nat.pow_lt_pow_right (by decide) (by omega)
  have hlt2 : (0x01 <<< b) < 65536 := hlt
  have he : bitNot16 (0x01 <<< b) = 2 ^ 16 - (0x01 <<< b + 1) := by
    unfold bitNot16
    rw [Nat.mod_eq_of_lt hlt2]
    omega
  rw [he, Nat.testBit_two_pow_sub_succ hlt, testBit_one_shift]
  have hj16 : j < 16 := by omega
  by_cases h : j = b <;> simp [h, hj16]

theorem testBit_fe_shift (b j : Nat) (hj : j ≤ 7) :
    (0xfe <<< b).testBit j = decide (b < j) := by
  rw [Nat.testBit_shiftLeft]
  by_cases h : b < j
  · have h1 : j ≥ b := by omega
    have : j - b = 1 ∨ j - b = 2 ∨ j - b = 3 ∨ j - b = 4 ∨ j - b = 5 ∨ j - b = 6 ∨ j - b = 7 := by omega
    rcases this with h2 | h2 | h2 | h2 | h2 | h2 | h2 <;> simp [h, h1, h2] <;> decide
  · by_cases h1 : j ≥ b
    · have : j - b = 0 := by omega
      simp [h, h1, this]
    · simp [h, h1]

theorem portBit_setPin (memory : Nat → Nat) (p : IOPin) (a j : Nat) (hj : j ≤ 7) :
    portBit (setPin memory p) a j =
      if a = p.address ∧ j = p.bit_position then true else portBit memory a j := by
  unfold portBit setPin
  by_cases ha : a = p.address
  · subst ha
    rw [Function.update_same, show (256 : Nat) = 2 ^ 8 from rfl, Nat.testBit_mod_two_pow,
      Nat.testBit_or, testBit_one_shift]
    have hj8 : j < 8 := by omega
    by_cases hjb : j = p.bit_position
    · subst hjb
      simp [hj8]
    · simp [hjb, hj8]
  · rw [Function.update_noteq ha]
    simp [ha]

theorem portBit_clearPin (memory : Nat → Nat) (p : IOPin) (a j : Nat) (hj : j ≤ 7)
    (hb : p.bit_position ≤ 7) :
    portBit (clearPin memory p) a j =
      if a = p.address ∧ j = p.bit_position then false else portBit memory a j := by
  unfold portBit clearPin
  by_cases ha : a = p.address
  · subst ha
    rw [Function.update_same, show (256 : Nat) = 2 ^ 8 from rfl, Nat.testBit_mod_two_pow,
      Nat.testBit_and, testBit_bitNot16_one_shift _ _ hb hj]
    have hj8 : j < 8 := by omega
    by_cases hjb : j = p.bit_position <;> simp [hjb, hj8]
  · rw [Function.update_noteq ha]
    simp [ha]

theorem portBit_releasePin (memory : Nat → Nat) (p : IOPin) (a j : Nat) (hj : j ≤ 7) :
    portBit (releasePin memory p) a j =
      if a = p.address ∧ j ≤ p.bit_position then false else portBit memory a j := by
  unfold portBit releasePin
  by_cases ha : a = p.address
  · subst ha
    rw [Function.update_same, show (256 : Nat) = 2 ^ 8 from rfl, Nat.testBit_mod_two_pow,
      Nat.testBit_and, testBit_fe_shift _ _ hj]
    have hj8 : j < 8 := by omega
    by_cases hjb : j ≤ p.bit_position
    · have : ¬ p.bit_position < j := by omega
      simp [hjb, this]
    · have : p.bit_position < j := by omega
      simp [hjb, this, hj8]
  · rw [Function.update_noteq ha]
    simp [ha]

theorem STEPPERISR_fields (s : StepperState) (hif : s.TMR1IF = true)
    (hie : s.TMR1IE = true) :
    (STEPPERISR s).memory = STEPPERISR_pins s.currentStep s.motor_pins s.memory ∧
    (STEPPERISR s).currentStep = STEPPERISR_advance s.currentStep s.direction ∧
    (STEPPERISR s).stepsToGo = (s.stepsToGo + 65536 - 1) % 65536 ∧
    ((STEPPERISR s).TMR1IE = false ↔ (s.stepsToGo + 65536 - 1) % 65536 = 0) ∧
    (STEPPERISR s).TMR1 = s.speed ∧ (STEPPERISR s).TMR1IF = false ∧
    (STEPPERISR s).direction = s.direction ∧
    (STEPPERISR s).previousDirection = s.previousDirection ∧
    (STEPPERISR s).speed = s.speed ∧ (STEPPERISR s).motor_pins = s.motor_pins := by
  unfold STEPPERISR
  simp only [hif, hie, Bool.and_self, if_true]
  split
  · rename_i h
    exact ⟨rfl, rfl, rfl, ⟨fun _ => h, fun _ => rfl⟩, rfl, rfl, rfl, rfl, rfl, rfl⟩
  · rename_i h
    refine ⟨rfl, rfl, rfl, ⟨fun h2 => ?_, fun h2 => absurd h2 h⟩, rfl, rfl, rfl, rfl,
      rfl, rfl⟩
    exact absurd (show true = false from h2) (by decide)

theorem STEPPERISR_disabled (s : StepperState)
    (h : s.TMR1IF = false ∨ s.TMR1IE = false) : STEPPERISR s = s := by
  unfold STEPPERISR
  rcases h with h | h <;> simp [h]

theorem STEPPERISR_advance_eq (cs : Nat) (dir : StepperMotorDirection)
    (hcs : cs ≤ 3) :
    STEPPERISR_advance cs dir =
      match dir with
      | StepperMotorDirection.FORWARD => (cs + 1) % 4
      | StepperMotorDirection.BACKWARD => (cs + 3) % 4 := by
  interval_cases cs <;> cases dir <;> rfl

/-! ## Stepper tick claims -/

/-- C11: per-tick state update of `STEPPERISR`.  With `TMR1IF` and `TMR1IE`
both set and `currentStep` in 0..3, one call reloads `TMR1` with `speed`,
clears `TMR1IF`, sets `currentStep` to `(currentStep + 1) mod 4` when the
direction is `FORWARD` and to `(currentStep + 3) mod 4` when it is `BACKWARD`,
so `currentStep` stays in 0..3, decrements the 16-bit `stepsToGo` by one
(`stepsToGo - 1` when it is at least 1), and clears `TMR1IE` exactly when the
new `stepsToGo` is 0.  With `TMR1IF` or `TMR1IE` clear the call returns the
state it was given. -/
theorem C11_tick_state_update (s : StepperState) :
    (s.TMR1IF = true → s.TMR1IE = true → s.currentStep ≤ 3 →
      (STEPPERISR s).TMR1 = s.speed ∧ (STEPPERISR s).TMR1IF = false ∧
      (STEPPERISR s).currentStep =
        (match s.direction with
          | StepperMotorDirection.FORWARD => (s.currentStep + 1) % 4
          | StepperMotorDirection.BACKWARD => (s.currentStep + 3) % 4) ∧
      (STEPPERISR s).currentStep ≤ 3 ∧
      (STEPPERISR s).stepsToGo = (s.stepsToGo + 65535) % 65536 ∧
      (1 ≤ s.stepsToGo → s.stepsToGo < 65536 →
        (STEPPERISR s).stepsToGo = s.stepsToGo - 1) ∧
      ((STEPPERISR s).TMR1IE = false ↔ (STEPPERISR s).stepsToGo = 0) ∧
      ((STEPPERISR s).TMR1IE = true ↔ (STEPPERISR s).stepsToGo ≠ 0)) ∧
    (s.TMR1IF = false ∨ s.TMR1IE = false → STEPPERISR s = s) := by
  refine ⟨fun hif hie hcs => ?_, STEPPERISR_disabled s⟩
  obtain ⟨_, f2, f3, f4, f5, f6, _⟩ := STEPPERISR_fields s hif hie
  have hadv := STEPPERISR_advance_eq s.currentStep s.direction hcs
  rw [f2, f3, f5, f6, hadv]
  refine ⟨rfl, rfl, rfl, ?_, by omega, fun _ _ => by omega, f4, ?_⟩
  · cases s.direction <;> simp only <;> omega
  · constructor
    · intro h hx
      rw [f4.2 hx] at h
      exact absurd h (by decide)
    · intro h
      cases hb : (STEPPERISR s).TMR1IE
      · exact absurd (f4.1 hb) h
      · rfl

/-- Witness of C11: a backward tick from step 0 with one step left, and a call
with `TMR1IF` clear. -/
theorem C11_tick_state_update_witness :
    ((STEPPERISR { exampleStepper with
          direction := StepperMotorDirection.BACKWARD, stepsToGo := 1,
          TMR1IF := true }).currentStep = (0 + 3) % 4 ∧
      (STEPPERISR { exampleStepper with
          direction := StepperMotorDirection.BACKWARD, stepsToGo := 1,
          TMR1IF := true }).stepsToGo = 1 - 1 ∧
      (STEPPERISR { exampleStepper with
          direction := StepperMotorDirection.BACKWARD, stepsToGo := 1,
          TMR1IF := true }).TMR1IE = false) ∧
    (exampleStepper.TMR1IF = false ∧ STEPPERISR exampleStepper = exampleStepper) :=
  ⟨⟨((C11_tick_state_update _).1 rfl rfl (by decide)).2.2.1,
      ((C11_tick_state_update _).1 rfl rfl (by decide)).2.2.2.2.2.1 (by decide)
        (by decide),
      by decide⟩,
    ⟨rfl, (C11_tick_state_update exampleStepper).2 (Or.inl rfl)⟩⟩

theorem pin_eq_iff (pins : Fin 4 → IOPin) (hp : PinsBound pins) (i k : Fin 4) :
    ((pins i).address = (pins k).address ∧
      (pins i).bit_position = (pins k).bit_position) ↔ i = k := by
  constructor
  · rintro ⟨h1, h2⟩
    by_contra hne
    apply hp.1 i k hne
    cases hi : pins i
    cases hk : pins k
    rw [hi, hk] at h1 h2
    simp only at h1 h2
    rw [h1, h2]
  · rintro rfl
    exact ⟨rfl, rfl⟩

theorem pins_levels (pins : Fin 4 → IOPin) (hp : PinsBound pins)
    (memory : Nat → Nat) (row : Nat) (hrow : row ≤ 3) (i : Fin 4) :
    portBit (STEPPERISR_pins row pins memory) (pins i).address (pins i).bit_position
      = phaseTable row i := by
  have hb := hp.2
  have e0 := pin_eq_iff pins hp i 0
  have e1 := pin_eq_iff pins hp i 1
  have e2 := pin_eq_iff pins hp i 2
  have e3 := pin_eq_iff pins hp i 3
  interval_cases row <;>
    simp only [STEPPERISR_pins, phaseTable, portBit_setPin _ _ _ _ (hb i),
      portBit_clearPin _ _ _ _ (hb i) (hb 0), portBit_clearPin _ _ _ _ (hb i) (hb 1),
      portBit_clearPin _ _ _ _ (hb i) (hb 2), portBit_clearPin _ _ _ _ (hb i) (hb 3),
      e0, e1, e2, e3] <;>
    fin_cases i <;> simp

theorem pins_frame (pins : Fin 4 → IOPin) (hp : PinsBound pins)
    (memory : Nat → Nat) (row : Nat) (a j : Nat) (hj : j ≤ 7)
    (hother : ∀ i : Fin 4, pins i ≠ { address := a, bit_position := j }) :
    portBit (STEPPERISR_pins row pins memory) a j = portBit memory a j := by
  have hb := hp.2
  have hk : ∀ k : Fin 4,
      ¬ (a = (pins k).address ∧ j = (pins k).bit_position) := by
    rintro k ⟨h1, h2⟩
    apply hother k
    cases hk : pins k
    rw [hk] at h1 h2
    simp only at h1 h2
    rw [h1, h2]
  unfold STEPPERISR_pins
  split <;>
    simp only [portBit_setPin _ _ _ _ hj,
      portBit_clearPin _ _ _ _ hj (hb 0), portBit_clearPin _ _ _ _ hj (hb 1),
      portBit_clearPin _ _ _ _ hj (hb 2), portBit_clearPin _ _ _ _ hj (hb 3),
      hk, if_false]

/-- C12: the phase table of `STEPPERISR`.  With the four pins bound to
pairwise distinct (address, bit position) pairs, bit positions 0..7, for every
`currentStep` in 0..3 and every prior content of the ports, one tick
(`TMR1IF` and `TMR1IE` set) leaves the pins at the levels of the table row
`currentStep` (row 0 = pins 0 and 2 high, row 1 = pins 0 and 3, row 2 = pins 1
and 3, row 3 = pins 1 and 2), hence exactly two pins high, and leaves every
port bit that is not one of the four pins unchanged. -/
theorem C12_phase_table (s : StepperState) (hpins : PinsBound s.motor_pins)
    (hrow : s.currentStep ≤ 3) (hif : s.TMR1IF = true) (hie : s.TMR1IE = true) :
    (∀ i : Fin 4, pinLevel (STEPPERISR s) i = phaseTable s.currentStep i) ∧
    ((List.finRange 4).filter (fun i => pinLevel (STEPPERISR s) i)).length = 2 ∧
    (∀ a j : Nat, j ≤ 7 →
      (∀ i : Fin 4, s.motor_pins i ≠ { address := a, bit_position := j }) →
      portBit (STEPPERISR s).memory a j = portBit s.memory a j) := by
  obtain ⟨f1, _, _, _, _, _, _, _, _, f10⟩ := STEPPERISR_fields s hif hie
  have hlev : ∀ i : Fin 4, pinLevel (STEPPERISR s) i = phaseTable s.currentStep i := by
    intro i
    unfold pinLevel
    rw [f1, f10]
    exact pins_levels s.motor_pins hpins s.memory s.currentStep hrow i
  refine ⟨hlev, ?_, ?_⟩
  · rw [show (fun i => pinLevel (STEPPERISR s) i) = phaseTable s.currentStep from
      funext hlev]
    obtain ⟨c, hc⟩ : ∃ c, s.currentStep = c := ⟨_, rfl⟩
    rw [hc] at hrow ⊢
    interval_cases c <;> decide
  · intro a j hj hother
    rw [f1]
    exact pins_frame s.motor_pins hpins s.memory s.currentStep a j hj hother

/-- Witness of C12: a tick at row 1 with the pins on bits 4 to 7 of a port
byte whose bits are all high. -/
theorem C12_phase_table_witness :
    PinsBound exampleStepperHighPins.motor_pins ∧
    ((∀ i : Fin 4,
        pinLevel (STEPPERISR { exampleStepperHighPins with
          currentStep := 1, TMR1IF := true, TMR1IE := true }) i = phaseTable 1 i) ∧
      ((List.finRange 4).filter (fun i =>
        pinLevel (STEPPERISR { exampleStepperHighPins with
          currentStep := 1, TMR1IF := true, TMR1IE := true }) i)).length = 2 ∧
      (∀ a j : Nat, j ≤ 7 →
        (∀ i : Fin 4, exampleStepperHighPins.motor_pins i ≠
          { address := a, bit_position := j }) →
        portBit (STEPPERISR { exampleStepperHighPins with
          currentStep := 1, TMR1IF := true, TMR1IE := true }).memory a j =
          portBit exampleStepperHighPins.memory a j)) ∧
    (STEPPERISR { exampleStepperHighPins with
      currentStep := 1, TMR1IF := true, TMR1IE := true }).memory 0xF81 = 0x9F :=
  ⟨⟨by decide, by decide⟩,
    C12_phase_table { exampleStepperHighPins with
        currentStep := 1, TMR1IF := true, TMR1IE := true }
      ⟨by decide, by decide⟩ (by decide) rfl rfl,
    by decide⟩

theorem tick_fields (s : StepperState) (hie : s.TMR1IE = true) :
    (tick s).memory = STEPPERISR_pins s.currentStep s.motor_pins s.memory ∧
    (tick s).currentStep = STEPPERISR_advance s.currentStep s.direction ∧
    (tick s).stepsToGo = (s.stepsToGo + 65536 - 1) % 65536 ∧
    ((tick s).TMR1IE = false ↔ (s.stepsToGo + 65536 - 1) % 65536 = 0) ∧
    (tick s).TMR1 = s.speed ∧ (tick s).TMR1IF = false ∧
    (tick s).direction = s.direction ∧
    (tick s).previousDirection = s.previousDirection ∧
    (tick s).speed = s.speed ∧ (tick s).motor_pins = s.motor_pins :=
  STEPPERISR_fields { s with TMR1IF := true } rfl hie

theorem tick_disabled (s : StepperState) (hie : s.TMR1IE = false) :
    tick s = { s with TMR1IF := true } :=
  STEPPERISR_disabled { s with TMR1IF := true } (Or.inr hie)

theorem bool_true_of_not_false (b : Bool) (h : ¬ b = false) : b = true := by
  cases b
  · exact absurd rfl h
  · rfl

theorem ticks_forward_run (s0 : StepperState) (n : Nat)
    (hn : s0.stepsToGo = n) (hn1 : 1 ≤ n) (hn16 : n < 65536)
    (hie : s0.TMR1IE = true) (hcs : s0.currentStep ≤ 3)
    (hdir : s0.direction = StepperMotorDirection.FORWARD) :
    ∀ k, k ≤ n →
      (ticks k s0).stepsToGo = n - k ∧
      (ticks k s0).currentStep = (s0.currentStep + k) % 4 ∧
      (ticks k s0).direction = StepperMotorDirection.FORWARD ∧
      (ticks k s0).motor_pins = s0.motor_pins ∧
      (k < n → (ticks k s0).TMR1IE = true) ∧
      (k = n → (ticks k s0).TMR1IE = false) := by
  intro k
  induction k with
  | zero =>
    intro _
    refine ⟨by simpa [ticks] using hn, ?_, hdir, rfl, fun _ => hie, fun h => by omega⟩
    show s0.currentStep = _
    omega
  | succ k ih =>
    intro hk
    obtain ⟨i1, i2, i3, i4, i5, _⟩ := ih (by omega)
    obtain ⟨_, f2, f3, f4, _, _, f7, _, _, f10⟩ := tick_fields (ticks k s0) (i5 (by omega))
    have hadv := STEPPERISR_advance_eq (ticks k s0).currentStep (ticks k s0).direction
      (by rw [i2]; omega)
    rw [i3] at hadv
    simp only at hadv
    rw [i1] at f3 f4
    rw [i3, hadv, i2] at f2
    show (tick (ticks k s0)).stepsToGo = _ ∧ (tick (ticks k s0)).currentStep = _ ∧
      (tick (ticks k s0)).direction = _ ∧ (tick (ticks k s0)).motor_pins = _ ∧
      (_ → (tick (ticks k s0)).TMR1IE = true) ∧ (_ → (tick (ticks k s0)).TMR1IE = false)
    refine ⟨by rw [f3]; omega, by rw [f2]; omega, f7.trans i3, f10.trans i4, ?_, ?_⟩
    · intro hlt
      apply bool_true_of_not_false
      intro hf
      have := f4.1 hf
      omega
    · intro heq
      apply f4.2
      omega

theorem start_fields (s : StepperState) (distance : Nat)
    (dir : StepperMotorDirection) (targetSpeed : Nat) :
    (startStepperMotor s distance dir targetSpeed).stepsToGo = distance ∧
    (startStepperMotor s distance dir targetSpeed).TMR1IE = true ∧
    (startStepperMotor s distance dir targetSpeed).direction = dir ∧
    (startStepperMotor s distance dir targetSpeed).motor_pins = s.motor_pins ∧
    (startStepperMotor s distance dir targetSpeed).memory = s.memory ∧
    (startStepperMotor s distance dir targetSpeed).TMR1IF = s.TMR1IF ∧
    (startStepperMotor s distance dir targetSpeed).currentStep =
      (if dir = s.direction then s.currentStep
       else match dir with
         | StepperMotorDirection.FORWARD => (s.currentStep + 1) % 4
         | StepperMotorDirection.BACKWARD => (s.currentStep + 3) % 4) := by
  obtain ⟨cs, stg, d0, pd, sp, pins, tmr, ie, fl, mem⟩ := s
  cases dir <;> cases d0 <;> by_cases hsp : targetSpeed > 0xCB00 <;>
    simp [startStepperMotor, STEPPER_MOTOR_MAX_SPEED, hsp] <;> omega

theorem start_step_le (s : StepperState) (distance : Nat)
    (dir : StepperMotorDirection) (targetSpeed : Nat) (hcs : s.currentStep ≤ 3) :
    (startStepperMotor s distance dir targetSpeed).currentStep ≤ 3 := by
  rw [(start_fields s distance dir targetSpeed).2.2.2.2.2.2]
  split
  · exact hcs
  · cases dir <;> simp only <;> omega

/-! ## Stepper motion claims -/

/-- C13, amended: a four-step forward run.  From any state with `currentStep`
in 0..3, `startStepperMotor(4, FORWARD, X)` followed by four ticks (`TMR1IF`
set before each `STEPPERISR` call) leaves `stepsToGo == 0` and `TMR1IE` clear,
with `TMR1IE` still set after each of the first three.  Tick `k + 1` executes
the pin statements of table row `(c + k) mod 4`, `c` being the `currentStep`
left by `startStepperMotor`; these four rows are the rows 0, 1, 2, 3, each
once.  A fifth call finds `TMR1IE` clear and changes no state.
`initStepperMotor` does not write `direction`: when the run is started right
after `initStepperMotor` and `direction` is `FORWARD`, `c` is 0 and the rows
come as 0, 1, 2, 3; when `direction` is `BACKWARD`, `c` is 1. -/
theorem C13_four_step_forward_run (s : StepperState) (X : Nat)
    (hcs : s.currentStep ≤ 3) :
    (ticks 4 (startStepperMotor s 4 StepperMotorDirection.FORWARD X)).stepsToGo = 0 ∧
    (ticks 4 (startStepperMotor s 4 StepperMotorDirection.FORWARD X)).TMR1IE = false ∧
    (∀ k, 1 ≤ k → k ≤ 3 →
      (ticks k (startStepperMotor s 4 StepperMotorDirection.FORWARD X)).TMR1IE = true) ∧
    (∀ k, k < 4 →
      (ticks (k + 1) (startStepperMotor s 4 StepperMotorDirection.FORWARD X)).memory =
        STEPPERISR_pins
          (((startStepperMotor s 4 StepperMotorDirection.FORWARD X).currentStep + k) % 4)
          s.motor_pins
          (ticks k (startStepperMotor s 4 StepperMotorDirection.FORWARD X)).memory) ∧
    ((List.range 4).map (fun k =>
        ((startStepperMotor s 4 StepperMotorDirection.FORWARD X).currentStep + k) % 4)).Perm
      [0, 1, 2, 3] ∧
    STEPPERISR (ticks 4 (startStepperMotor s 4 StepperMotorDirection.FORWARD X)) =
      ticks 4 (startStepperMotor s 4 StepperMotorDirection.FORWARD X) ∧
    tick (ticks 4 (startStepperMotor s 4 StepperMotorDirection.FORWARD X)) =
      { ticks 4 (startStepperMotor s 4 StepperMotorDirection.FORWARD X) with
        TMR1IF := true } ∧
    (∀ (p : StepperState) (pins : Fin 4 → IOPin),
      s = initStepperMotor p pins → p.direction = StepperMotorDirection.FORWARD →
      (startStepperMotor s 4 StepperMotorDirection.FORWARD X).currentStep = 0) ∧
    (∀ (p : StepperState) (pins : Fin 4 → IOPin),
      s = initStepperMotor p pins → p.direction = StepperMotorDirection.BACKWARD →
      (startStepperMotor s 4 StepperMotorDirection.FORWARD X).currentStep = 1) := by
  obtain ⟨g1, g2, g3, g4, _, _, g7⟩ :=
    start_fields s 4 StepperMotorDirection.FORWARD X
  have g8 := start_step_le s 4 StepperMotorDirection.FORWARD X hcs
  have run := ticks_forward_run
    (startStepperMotor s 4 StepperMotorDirection.FORWARD X) 4 g1 (by decide)
    (by decide) g2 g8 g3
  obtain ⟨r1, _, _, _, _, r6⟩ := run 4 (by decide)
  have hoff := r6 rfl
  refine ⟨r1, hoff, ?_, ?_, ?_, STEPPERISR_disabled _ (Or.inr hoff),
    tick_disabled _ hoff, ?_, ?_⟩
  · intro k _ hk3
    exact (run k (by omega)).2.2.2.2.1 (by omega)
  · intro k hk
    obtain ⟨_, q2, _, q4, q5, _⟩ := run k (by omega)
    have hm := (tick_fields _ (q5 hk)).1
    rw [q2, q4, g4] at hm
    exact hm
  · obtain ⟨c, hc⟩ :
        ∃ c, (startStepperMotor s 4 StepperMotorDirection.FORWARD X).currentStep = c :=
      ⟨_, rfl⟩
    rw [hc] at g8 ⊢
    interval_cases c <;> decide
  · intro p pins hs hp
    rw [g7, hs]
    have hd : (initStepperMotor p pins).direction = p.direction := rfl
    rw [hd, hp]
    rfl
  · intro p pins hs hp
    rw [g7, hs]
    have hd : (initStepperMotor p pins).direction = p.direction := rfl
    rw [hd, hp]
    rfl

/-- Counterexample to C13 as the specification words it: with `direction` left at
`BACKWARD` by an earlier motion, `initStepperMotor` zeroes `currentStep` and
keeps `direction`; `startStepperMotor(4, FORWARD, 0x1000)` right after it
nudges `currentStep` to 1, and the four ticks assert the rows 1, 2, 3, 0: the
first tick leaves the pins at row 1, not at row 0. -/
theorem C13_rows_after_init_with_backward_direction :
    (initStepperMotor
        { exampleStepperHighPins with direction := StepperMotorDirection.BACKWARD }
        exampleStepperHighPins.motor_pins).currentStep = 0 ∧
    (initStepperMotor
        { exampleStepperHighPins with direction := StepperMotorDirection.BACKWARD }
        exampleStepperHighPins.motor_pins).direction = StepperMotorDirection.BACKWARD ∧
    (startStepperMotor (initStepperMotor
        { exampleStepperHighPins with direction := StepperMotorDirection.BACKWARD }
        exampleStepperHighPins.motor_pins) 4
      StepperMotorDirection.FORWARD 0x1000).currentStep = 1 ∧
    (List.range 4).map (fun k => (ticks k (startStepperMotor (initStepperMotor
        { exampleStepperHighPins with direction := StepperMotorDirection.BACKWARD }
        exampleStepperHighPins.motor_pins) 4
      StepperMotorDirection.FORWARD 0x1000)).currentStep) = [1, 2, 3, 0] ∧
    (List.range 5).map (fun k => (ticks k (startStepperMotor (initStepperMotor
        { exampleStepperHighPins with direction := StepperMotorDirection.BACKWARD }
        exampleStepperHighPins.motor_pins) 4
      StepperMotorDirection.FORWARD 0x1000)).memory 0xF81) =
      [0xFF, 0x9F, 0xAF, 0x6F, 0x5F] ∧
    (∀ i : Fin 4, pinLevel (ticks 1 (startStepperMotor (initStepperMotor
        { exampleStepperHighPins with direction := StepperMotorDirection.BACKWARD }
        exampleStepperHighPins.motor_pins) 4
      StepperMotorDirection.FORWARD 0x1000)) i = phaseTable 1 i) ∧
    ¬ (∀ i : Fin 4, pinLevel (ticks 1 (startStepperMotor (initStepperMotor
        { exampleStepperHighPins with direction := StepperMotorDirection.BACKWARD }
        exampleStepperHighPins.motor_pins) 4
      StepperMotorDirection.FORWARD 0x1000)) i = phaseTable 0 i) := by
  decide

/-- Witness of C13: the run started from step 0 with the direction already
`FORWARD`, and the same run started right after `initStepperMotor`. -/
theorem C13_four_step_forward_run_witness :
    exampleStepperHighPins.currentStep ≤ 3 ∧
    (List.range 5).map (fun k => (ticks k (startStepperMotor exampleStepperHighPins 4
        StepperMotorDirection.FORWARD 0x1000)).memory 0xF81) =
      [0xFF, 0x5F, 0x9F, 0xAF, 0x6F] ∧
    (ticks 4 (startStepperMotor exampleStepperHighPins 4
        StepperMotorDirection.FORWARD 0x1000)).stepsToGo = 0 ∧
    (ticks 4 (startStepperMotor exampleStepperHighPins 4
        StepperMotorDirection.FORWARD 0x1000)).TMR1IE = false ∧
    (∀ k, 1 ≤ k → k ≤ 3 →
      (ticks k (startStepperMotor exampleStepperHighPins 4
        StepperMotorDirection.FORWARD 0x1000)).TMR1IE = true) ∧
    ((initStepperMotor exampleStepperHighPins
        exampleStepperHighPins.motor_pins).currentStep ≤ 3 ∧
      exampleStepperHighPins.direction = StepperMotorDirection.FORWARD ∧
      (startStepperMotor (initStepperMotor exampleStepperHighPins
        exampleStepperHighPins.motor_pins) 4
        StepperMotorDirection.FORWARD 0x1000).currentStep = 0) :=
  ⟨by decide, by decide,
    (C13_four_step_forward_run exampleStepperHighPins 0x1000 (by decide)).1,
    (C13_four_step_forward_run exampleStepperHighPins 0x1000 (by decide)).2.1,
    (C13_four_step_forward_run exampleStepperHighPins 0x1000 (by decide)).2.2.1,
    ⟨by decide, rfl,
      (C13_four_step_forward_run (initStepperMotor exampleStepperHighPins
        exampleStepperHighPins.motor_pins) 0x1000 (by decide)).2.2.2.2.2.2.2.1
        exampleStepperHighPins exampleStepperHighPins.motor_pins rfl rfl⟩⟩

/-- C14, evaluated on the code: from step 0 going forward,
`startStepperMotor(2, FORWARD, _)` and two ticks assert rows 0 and 1; after
`startStepperMotor(1, BACKWARD, _)` the next tick runs with `currentStep == 1`
and leaves the pins at row 1 again, not at row 0. -/
theorem C14_reversal_reasserts_row :
    (ticks 1 (startStepperMotor exampleStepper 2
      StepperMotorDirection.FORWARD 0x1000)).currentStep = 1 ∧
    (∀ i : Fin 4, pinLevel (ticks 2 (startStepperMotor exampleStepper 2
      StepperMotorDirection.FORWARD 0x1000)) i = phaseTable 1 i) ∧
    (startStepperMotor (ticks 2 (startStepperMotor exampleStepper 2
        StepperMotorDirection.FORWARD 0x1000)) 1
      StepperMotorDirection.BACKWARD 0x1000).currentStep = 1 ∧
    (∀ i : Fin 4, pinLevel (tick (startStepperMotor (ticks 2 (startStepperMotor
        exampleStepper 2 StepperMotorDirection.FORWARD 0x1000)) 1
      StepperMotorDirection.BACKWARD 0x1000)) i = phaseTable 1 i) ∧
    ¬ (∀ i : Fin 4, pinLevel (tick (startStepperMotor (ticks 2 (startStepperMotor
        exampleStepper 2 StepperMotorDirection.FORWARD 0x1000)) 1
      StepperMotorDirection.BACKWARD 0x1000)) i = phaseTable 0 i) := by
  decide

/-- C15, evaluated on the code: for every state, direction and speed,
`startStepperMotor(0, dir, X)` sets `TMR1IE` with `stepsToGo == 0`, and the
first following tick wraps the 16-bit `stepsToGo` to 65535 and leaves `TMR1IE`
set. -/
theorem C15_zero_distance_wraps (s : StepperState) (dir : StepperMotorDirection)
    (X : Nat) :
    (startStepperMotor s 0 dir X).TMR1IE = true ∧
    (startStepperMotor s 0 dir X).stepsToGo = 0 ∧
    (tick (startStepperMotor s 0 dir X)).stepsToGo = 65535 ∧
    (tick (startStepperMotor s 0 dir X)).TMR1IE = true := by
  obtain ⟨g1, g2, _⟩ := start_fields s 0 dir X
  obtain ⟨_, _, f3, f4, _⟩ := tick_fields (startStepperMotor s 0 dir X) g2
  rw [g1] at f3 f4
  refine ⟨g2, g1, f3, ?_⟩
  apply bool_true_of_not_false
  intro hf
  exact absurd (f4.1 hf) (by decide)

/-- C16: `release_stepper_motor` clears the motor pins and leaves the motion
state alone.  With the four pins at bit positions 0..7, after the call each of
the four pin bits reads 0, whatever the ports held and whether or not a motion
is in progress, and `stepsToGo`, `currentStep`, `direction`, `speed` and
`TMR1IE` are unchanged. -/
theorem C16_release_clears_pins (s : StepperState)
    (hbits : ∀ i : Fin 4, (s.motor_pins i).bit_position ≤ 7) :
    (∀ i : Fin 4, pinLevel (release_stepper_motor s) i = false) ∧
    (release_stepper_motor s).stepsToGo = s.stepsToGo ∧
    (release_stepper_motor s).currentStep = s.currentStep ∧
    (release_stepper_motor s).direction = s.direction ∧
    (release_stepper_motor s).speed = s.speed ∧
    (release_stepper_motor s).TMR1IE = s.TMR1IE := by
  refine ⟨?_, rfl, rfl, rfl, rfl, rfl⟩
  intro i
  show portBit (releasePin (releasePin (releasePin (releasePin s.memory
      (s.motor_pins 0)) (s.motor_pins 1)) (s.motor_pins 2)) (s.motor_pins 3))
    (s.motor_pins i).address (s.motor_pins i).bit_position = false
  simp only [portBit_releasePin _ _ _ _ (hbits i)]
  fin_cases i <;> simp

/-- Witness of C16: a release in mid-motion with the pins on bits 4 to 7 of a
port byte whose bits are all high. -/
theorem C16_release_clears_pins_witness :
    (∀ i : Fin 4, (exampleStepperHighPins.motor_pins i).bit_position ≤ 7) ∧
    (∀ i : Fin 4, pinLevel { exampleStepperHighPins with
        stepsToGo := 9, TMR1IE := true } i = true) ∧
    ((∀ i : Fin 4, pinLevel (release_stepper_motor { exampleStepperHighPins with
        stepsToGo := 9, TMR1IE := true }) i = false) ∧
      (release_stepper_motor { exampleStepperHighPins with
        stepsToGo := 9, TMR1IE := true }).stepsToGo = 9 ∧
      (release_stepper_motor { exampleStepperHighPins with
        stepsToGo := 9, TMR1IE := true }).currentStep = 0 ∧
      (release_stepper_motor { exampleStepperHighPins with
        stepsToGo := 9, TMR1IE := true }).direction = StepperMotorDirection.FORWARD ∧
      (release_stepper_motor { exampleStepperHighPins with
        stepsToGo := 9, TMR1IE := true }).speed = 0 ∧
      (release_stepper_motor { exampleStepperHighPins with
        stepsToGo := 9, TMR1IE := true }).TMR1IE = true) :=
  ⟨by decide, by decide,
    C16_release_clears_pins { exampleStepperHighPins with
      stepsToGo := 9, TMR1IE := true } (by decide)⟩

/-- C17, evaluated on the code: with the pins on bits 4 to 7 of the port byte
at 0xF81 and every bit of that byte high, `release_stepper_motor` leaves the
byte at 0x00: bit 0, which is not a motor pin, was 1 and reads 0 afterwards.
The mask `0xfe << 4` has bits 0 to 4 clear. -/
theorem C17_release_clears_lower_bits :
    (∀ i : Fin 4, exampleStepperHighPins.motor_pins i ≠
      { address := 0xF81, bit_position := 0 }) ∧
    portBit exampleStepperHighPins.memory 0xF81 0 = true ∧
    portBit (release_stepper_motor exampleStepperHighPins).memory 0xF81 0 = false ∧
    exampleStepperHighPins.memory 0xF81 = 0xFF ∧
    (release_stepper_motor exampleStepperHighPins).memory 0xF81 = 0x00 := by
  decide

/-- The idle invariant carried along a run: `stepsToGo` is 0 exactly when
`TMR1IE` is clear, `stepsToGo` fits 16 bits and `currentStep` is in 0..3. -/
theorem applyEvent_invariant (s : StepperState) (e : StepperEvent)
    (he : e.startsNonzero)
    (hinv : (s.stepsToGo = 0 ↔ s.TMR1IE = false) ∧ s.stepsToGo < 65536 ∧
      s.currentStep ≤ 3) :
    ((applyEvent s e).stepsToGo = 0 ↔ (applyEvent s e).TMR1IE = false) ∧
    (applyEvent s e).stepsToGo < 65536 ∧ (applyEvent s e).currentStep ≤ 3 := by
  obtain ⟨h1, h2, h3⟩ := hinv
  cases e with
  | start distance dir targetSpeed =>
    obtain ⟨hd1, hd2⟩ : 1 ≤ distance ∧ distance < 65536 := he
    obtain ⟨g1, g2, _⟩ := start_fields s distance dir targetSpeed
    have g3 := start_step_le s distance dir targetSpeed h3
    show ((startStepperMotor s distance dir targetSpeed).stepsToGo = 0 ↔
        (startStepperMotor s distance dir targetSpeed).TMR1IE = false) ∧
      (startStepperMotor s distance dir targetSpeed).stepsToGo < 65536 ∧
      (startStepperMotor s distance dir targetSpeed).currentStep ≤ 3
    rw [g1, g2]
    refine ⟨⟨fun h => by omega, fun h => absurd h (by decide)⟩, hd2, g3⟩
  | isr =>
    show ((STEPPERISR s).stepsToGo = 0 ↔ (STEPPERISR s).TMR1IE = false) ∧
      (STEPPERISR s).stepsToGo < 65536 ∧ (STEPPERISR s).currentStep ≤ 3
    by_cases hif : s.TMR1IF = true
    · by_cases hie : s.TMR1IE = true
      · obtain ⟨_, f2, f3, f4, _⟩ := STEPPERISR_fields s hif hie
        have hadv := STEPPERISR_advance_eq s.currentStep s.direction h3
        rw [f2, f3, hadv]
        refine ⟨f4.symm, by omega, ?_⟩
        cases s.direction <;> simp only <;> omega
      · have hd := STEPPERISR_disabled s (Or.inr (by simpa using hie))
        rw [hd]
        exact ⟨h1, h2, h3⟩
    · have hd := STEPPERISR_disabled s (Or.inl (by simpa using hif))
      rw [hd]
      exact ⟨h1, h2, h3⟩
  | release => exact ⟨h1, h2, h3⟩
  | timerOverflow => exact ⟨h1, h2, h3⟩

theorem runStepper_invariant (events : List StepperEvent) :
    ∀ (s : StepperState), (∀ e ∈ events, StepperEvent.startsNonzero e) →
      ((s.stepsToGo = 0 ↔ s.TMR1IE = false) ∧ s.stepsToGo < 65536 ∧
        s.currentStep ≤ 3) →
      (((runStepper s events).stepsToGo = 0 ↔ (runStepper s events).TMR1IE = false) ∧
        (runStepper s events).stepsToGo < 65536 ∧
        (runStepper s events).currentStep ≤ 3) := by
  induction events with
  | nil =>
    intro s _ h
    exact h
  | cons e es ih =>
    intro s hev h
    show ((runStepper (applyEvent s e) es).stepsToGo = 0 ↔ _) ∧ _
    exact ih (applyEvent s e) (fun x hx => hev x (List.mem_cons_of_mem e hx))
      (applyEvent_invariant s e (hev e (List.mem_cons_self e es)) h)

/-- C18: idle invariant of the step sequencer.  In every state reached from an
initialised state (`stepsToGo == 0`, `TMR1IE` clear, `currentStep == 0`) by a
sequence of `startStepperMotor` calls with distance at least 1,
`STEPPERISR` calls, `release_stepper_motor` calls and timer overflows setting
`TMR1IF`, `stepsToGo == 0` holds exactly when `TMR1IE` is clear,
`stepperMotorFinished()` returns nonzero exactly in those states and zero
while `stepsToGo > 0`, and `currentStep` is in 0..3. -/
theorem C18_idle_invariant (s0 : StepperState) (hsteps : s0.stepsToGo = 0)
    (hie : s0.TMR1IE = false) (hcs : s0.currentStep = 0)
    (events : List StepperEvent)
    (hev : ∀ e ∈ events, StepperEvent.startsNonzero e) :
    ((runStepper s0 events).stepsToGo = 0 ↔ (runStepper s0 events).TMR1IE = false) ∧
    (stepperMotorFinished (runStepper s0 events) ≠ 0 ↔
      (runStepper s0 events).stepsToGo = 0) ∧
    (0 < (runStepper s0 events).stepsToGo →
      stepperMotorFinished (runStepper s0 events) = 0) ∧
    (runStepper s0 events).currentStep ≤ 3 := by
  obtain ⟨h1, _, h3⟩ := runStepper_invariant events s0 hev
    ⟨⟨fun _ => hie, fun _ => hsteps⟩, by omega, by omega⟩
  refine ⟨h1, ?_, ?_, h3⟩
  · unfold stepperMotorFinished
    by_cases hz : (runStepper s0 events).stepsToGo = 0
    · rw [if_pos hz]
      exact ⟨fun _ => hz, fun _ => by decide⟩
    · rw [if_neg hz]
      exact ⟨fun h => absurd rfl h, fun h => absurd h hz⟩
  · intro hpos
    unfold stepperMotorFinished
    rw [if_neg (by omega)]

/-- Witness of C18: a two-step run mixed with a release, a spurious interrupt
call and a restart; the sequencer ends idle. -/
theorem C18_idle_invariant_witness :
    (exampleStepperHighPins.stepsToGo = 0 ∧ exampleStepperHighPins.TMR1IE = false ∧
      exampleStepperHighPins.currentStep = 0 ∧
      ∀ e ∈ [StepperEvent.isr, .start 2 .FORWARD 0x1000, .isr, .timerOverflow, .isr,
          .release, .start 1 .BACKWARD 0xFFFF, .timerOverflow, .isr, .isr],
        StepperEvent.startsNonzero e) ∧
    (runStepper exampleStepperHighPins
      [.isr, .start 2 .FORWARD 0x1000, .isr, .timerOverflow, .isr]).stepsToGo = 1 ∧
    (runStepper exampleStepperHighPins
      [.isr, .start 2 .FORWARD 0x1000, .isr, .timerOverflow, .isr,
        .release, .start 1 .BACKWARD 0xFFFF, .timerOverflow, .isr, .isr]).TMR1IE
      = false ∧
    (((runStepper exampleStepperHighPins
        [.isr, .start 2 .FORWARD 0x1000, .isr, .timerOverflow, .isr,
          .release, .start 1 .BACKWARD 0xFFFF, .timerOverflow, .isr, .isr]).stepsToGo
        = 0 ↔
      (runStepper exampleStepperHighPins
        [.isr, .start 2 .FORWARD 0x1000, .isr, .timerOverflow, .isr,
          .release, .start 1 .BACKWARD 0xFFFF, .timerOverflow, .isr, .isr]).TMR1IE
        = false) ∧
     (stepperMotorFinished (runStepper exampleStepperHighPins
        [.isr, .start 2 .FORWARD 0x1000, .isr, .timerOverflow, .isr,
          .release, .start 1 .BACKWARD 0xFFFF, .timerOverflow, .isr, .isr]) ≠ 0 ↔
      (runStepper exampleStepperHighPins
        [.isr, .start 2 .FORWARD 0x1000, .isr, .timerOverflow, .isr,
          .release, .start 1 .BACKWARD 0xFFFF, .timerOverflow, .isr, .isr]).stepsToGo
        = 0) ∧
     (0 < (runStepper exampleStepperHighPins
        [.isr, .start 2 .FORWARD 0x1000, .isr, .timerOverflow, .isr,
          .release, .start 1 .BACKWARD 0xFFFF, .timerOverflow, .isr, .isr]).stepsToGo →
      stepperMotorFinished (runStepper exampleStepperHighPins
        [.isr, .start 2 .FORWARD 0x1000, .isr, .timerOverflow, .isr,
          .release, .start 1 .BACKWARD 0xFFFF, .timerOverflow, .isr, .isr]) = 0) ∧
     (runStepper exampleStepperHighPins
        [.isr, .start 2 .FORWARD 0x1000, .isr, .timerOverflow, .isr,
          .release, .start 1 .BACKWARD 0xFFFF, .timerOverflow, .isr, .isr]).currentStep
        ≤ 3) :=
  ⟨⟨rfl, rfl, rfl, by
      intro e he
      simp only [List.mem_cons, List.mem_singleton, List.mem_nil_iff, or_false] at he
      rcases he with h | h | h | h | h | h | h | h | h | h <;> subst h <;>
        simp [StepperEvent.startsNonzero]⟩,
    by decide, by decide,
    C18_idle_invariant exampleStepperHighPins rfl rfl rfl _ (by
      intro e he
      simp only [List.mem_cons, List.mem_singleton, List.mem_nil_iff, or_false] at he
      rcases he with h | h | h | h | h | h | h | h | h | h <;> subst h <;>
        simp [StepperEvent.startsNonzero])⟩

/-! ## Ring buffer frame and index-range claims -/

/-- C19: single writer per index.  For every buffer state and byte,
`writeCircularBuffer` never changes `tail` (nor `size`) and changes storage at
most at the old `head`, where a successful write leaves `data`;
`readCircularBuffer` never changes `head`, `size` or any storage byte.  So a
successful write changes only the storage byte at the old head and `head`, and
a successful read changes only `tail`. -/
theorem C19_single_writer_per_index (buf : CircularBuffer) (data : Nat) :
    (writeCircularBuffer buf data).1.tail = buf.tail ∧
    (writeCircularBuffer buf data).1.size = buf.size ∧
    (writeCircularBuffer buf data).1.base =
      Function.update buf.base buf.head
        (if circularBufferFull buf ≠ 0 then buf.base buf.head else data) ∧
    (readCircularBuffer buf).2.1.head = buf.head ∧
    (readCircularBuffer buf).2.1.base = buf.base ∧
    (readCircularBuffer buf).2.1.size = buf.size := by
  refine ⟨write_tail buf data, write_size buf data, ?_, ?_, ?_, read_size buf⟩
  · unfold writeCircularBuffer
    split
    · exact (Function.update_eq_self _ _).symm
    · rfl
  · unfold readCircularBuffer
    split <;> rfl
  · unfold readCircularBuffer
    split <;> rfl

theorem full_iff_next (buf : CircularBuffer) (hw : buf.WellFormed) :
    circularBufferFull buf ≠ 0 ↔ (buf.head + 1) % buf.size = buf.tail := by
  obtain ⟨hs, hh, _⟩ := hw
  unfold circularBufferFull
  simp only []
  rw [Nat.mod_eq_of_lt (show buf.head + 1 < 65536 by omega),
    next_index_mod buf.head buf.size hh]
  split <;> simp [*]

/-- C20: index-range invariant.  For a buffer with `size = C` (a `uint16_t`),
`head < C` and `tail < C`, every `writeCircularBuffer` and
`readCircularBuffer` call leaves `head < C` and `tail < C`; a call reporting
`NO_ERROR` advances its index to `(index + 1) mod C`, with `index + 1` below
65536; the write stores nowhere at or beyond offset `C`, and the byte a
successful read returns is the one at offset `tail < C`; and
`circularBufferFull` is nonzero exactly when `(head + 1) mod C == tail`. -/
theorem C20_index_range (buf : CircularBuffer) (data : Nat)
    (hC : buf.size < 65536) (hh : buf.head < buf.size) (ht : buf.tail < buf.size) :
    ((writeCircularBuffer buf data).1.head < buf.size ∧
      (writeCircularBuffer buf data).1.tail < buf.size ∧
      (writeCircularBuffer buf data).1.size = buf.size) ∧
    ((readCircularBuffer buf).2.1.head < buf.size ∧
      (readCircularBuffer buf).2.1.tail < buf.size ∧
      (readCircularBuffer buf).2.1.size = buf.size) ∧
    ((writeCircularBuffer buf data).2 = CircularBufferError.NO_ERROR →
      (writeCircularBuffer buf data).1.head = (buf.head + 1) % buf.size ∧
      buf.head + 1 < 65536) ∧
    ((readCircularBuffer buf).2.2 = CircularBufferError.NO_ERROR →
      (readCircularBuffer buf).2.1.tail = (buf.tail + 1) % buf.size ∧
      buf.tail + 1 < 65536 ∧
      (readCircularBuffer buf).1 = buf.base buf.tail) ∧
    (∀ k, buf.size ≤ k → (writeCircularBuffer buf data).1.base k = buf.base k) ∧
    (circularBufferFull buf ≠ 0 ↔ (buf.head + 1) % buf.size = buf.tail) := by
  have hw : buf.WellFormed := ⟨hC, hh, ht⟩
  have hw1 := write_wf buf data hw
  have hr1 := read_wf buf hw
  have hws := write_size buf data
  have hrs := read_size buf
  refine ⟨?_, ?_, ?_, ?_, ?_, full_iff_next buf hw⟩
  · obtain ⟨_, a, b⟩ := hw1
    rw [hws] at a b
    exact ⟨a, b, hws⟩
  · obtain ⟨_, a, b⟩ := hr1
    rw [hrs] at a b
    exact ⟨a, b, hrs⟩
  · intro hok
    by_cases hf : circularBufferFull buf = 0
    · rw [write_eq buf data hw hf]
      exact ⟨next_index_mod _ _ hh, by omega⟩
    · rw [write_full_eq buf data hf] at hok
      exact absurd hok (by simp)
  · intro hok
    by_cases he : circularBufferEmpty buf = 0
    · rw [read_eq buf hw he]
      exact ⟨next_index_mod _ _ ht, by omega, rfl⟩
    · rw [read_empty_eq buf he] at hok
      exact absurd hok (by simp)
  · intro k hk
    by_cases hf : circularBufferFull buf = 0
    · rw [write_eq buf data hw hf]
      exact Function.update_noteq (by omega) _ _
    · rw [write_full_eq buf data hf]

/-- Witness of C20: the 4-slot buffer with head 3 and tail 1, where the write
wraps head to 0. -/
theorem C20_index_range_witness :
    (({ exampleBuffer with head := 3 } : CircularBuffer).size < 65536 ∧
      (3 : Nat) < 4 ∧ (1 : Nat) < 4) ∧
    (writeCircularBuffer { exampleBuffer with head := 3 } 0x41).2 =
      CircularBufferError.NO_ERROR ∧
    (writeCircularBuffer { exampleBuffer with head := 3 } 0x41).1.head = (3 + 1) % 4 ∧
    (readCircularBuffer { exampleBuffer with head := 3 }).2.1.tail = (1 + 1) % 4 ∧
    (circularBufferFull { exampleBuffer with head := 3 } ≠ 0 ↔ (3 + 1) % 4 = 1) :=
  ⟨⟨by decide, by decide, by decide⟩, by decide,
    ((C20_index_range { exampleBuffer with head := 3 } 0x41 (by decide) (by decide)
      (by decide)).2.2.1 (by decide)).1,
    ((C20_index_range { exampleBuffer with head := 3 } 0x41 (by decide) (by decide)
      (by decide)).2.2.2.1 (by decide)).1,
    (C20_index_range { exampleBuffer with head := 3 } 0x41 (by decide) (by decide)
      (by decide)).2.2.2.2.2⟩

/-! ## Helper lemmas on the string library -/

theorem numDigits_step (base n : Nat) (hb : 2 ≤ base) :
    numDigits base n = if n / base = 0 then 1 else 1 + numDigits base (n / base) := by
  unfold numDigits
  by_cases hn : n = 0
  · subst hn
    simp
  · rw [if_neg hn, Nat.digits_def' (by omega) (Nat.pos_of_ne_zero hn), List.length_cons]
    by_cases hq : n / base = 0
    · rw [if_pos hq, hq, Nat.digits_zero]
      rfl
    · rw [if_neg hq, if_neg hq]
      omega

theorem numDigits_pos (base n : Nat) (hb : 2 ≤ base) : 1 ≤ numDigits base n := by
  rw [numDigits_step base n hb]
  split <;> omega

theorem lt_pow_numDigits (base n : Nat) (hb : 2 ≤ base) :
    n < base ^ numDigits base n := by
  unfold numDigits
  split
  · rename_i h
    rw [h, Nat.pow_one]
    omega
  · exact Nat.lt_base_pow_length_digits (by omega)

theorem div_lt_two_pow (base n k : Nat) (hb : 2 ≤ base) (hn : n < 2 ^ (k + 1)) :
    n / base < 2 ^ k := by
  have h1 : n / base ≤ n / 2 := Nat.div_le_div_left hb (by decide)
  have h2 : n / 2 < 2 ^ k := by
    apply Nat.div_lt_of_lt_mul
    rw [Nat.pow_succ] at hn
    omega
  omega

theorem one_le_of_pos_lt_two_pow (m k : Nat) (hm : m ≠ 0) (h : m < 2 ^ k) : 1 ≤ k := by
  rcases k with _ | k
  · simp at h
    exact absurd h hm
  · omega

theorem numDigits_le (base : Nat) (hb : 2 ≤ base) (k : Nat) :
    ∀ n, 1 ≤ k → n < 2 ^ k → numDigits base n ≤ k := by
  induction k with
  | zero =>
    intro n h _
    omega
  | succ k ih =>
    intro n _ hn
    rw [numDigits_step base n hb]
    split
    · omega
    · rename_i hq
      have hlt := div_lt_two_pow base n k hb hn
      have := ih (n / base) (one_le_of_pos_lt_two_pow _ _ hq hlt) hlt
      omega

theorem num_length_loop_spec (base : Nat) (hb : 2 ≤ base) (fuel : Nat) :
    ∀ n length, 1 ≤ fuel → n < 2 ^ fuel → length + numDigits base n < 256 →
      std_string_num_length_loop fuel n base length =
        some (length + numDigits base n) := by
  induction fuel with
  | zero =>
    intro n length h _ _
    omega
  | succ f ih =>
    intro n length _ hn hlen
    have hstep := numDigits_step base n hb
    have hpos := numDigits_pos base n hb
    rw [std_string_num_length_loop]
    have hmod : (length + 1) % 256 = length + 1 := Nat.mod_eq_of_lt (by omega)
    rw [hmod]
    by_cases hq : n / base = 0
    · rw [if_pos hq] at hstep
      rw [if_neg (not_not.2 hq), hstep]
    · rw [if_neg hq] at hstep
      have hlt := div_lt_two_pow base n f hb hn
      rw [if_pos hq, ih (n / base) (length + 1)
        (one_le_of_pos_lt_two_pow _ _ hq hlt) hlt (by omega), hstep]
      congr 1
      omega

theorem digit_round_trip (d : Nat) (hd : d ≤ 15) :
    std_string_ascii_digit_to_int (std_string_int_to_ascii_digit d) = d := by
  interval_cases d <;> decide

theorem ascii_digit_is_hex (d : Nat) (hd : d ≤ 15) :
    isLowerHexDigit (std_string_int_to_ascii_digit d) := by
  unfold isLowerHexDigit
  interval_cases d <;> decide

theorem div_pow_succ (n base m : Nat) : n / base / base ^ m = n / base ^ (m + 1) := by
  rw [Nat.div_div_eq_div_mul, Nat.pow_succ, Nat.mul_comm]

theorem uint_to_string_loop_spec (base : Nat) (hb : 2 ≤ base) (hb16 : base ≤ 16)
    (fuel : Nat) :
    ∀ (memory : Nat → Nat) (head n : Nat), 1 ≤ fuel → n < 2 ^ fuel →
      numDigits base n ≤ head + 1 →
      ∃ result : Nat → Nat,
        std_string_uint_to_string_loop fuel memory head n base = some result ∧
        ∀ a, result a =
          if head + 1 - numDigits base n ≤ a ∧ a ≤ head then
            std_string_int_to_ascii_digit (n / base ^ (head - a) % base)
          else memory a := by
  induction fuel with
  | zero =>
    intro memory head n h _ _
    omega
  | succ f ih =>
    intro memory head n _ hn hhead
    have hstep := numDigits_step base n hb
    have hdig : n % base % 256 = n % base := by
      have : n % base < base := Nat.mod_lt _ (by omega)
      exact Nat.mod_eq_of_lt (by omega)
    rw [std_string_uint_to_string_loop, hdig]
    by_cases hq : n / base = 0
    · rw [if_pos hq] at hstep
      rw [if_neg (not_not.2 hq)]
      refine ⟨_, rfl, fun a => ?_⟩
      rw [hstep]
      by_cases ha : a = head
      · subst ha
        rw [Function.update_same, if_pos ⟨by omega, by omega⟩, Nat.sub_self,
          Nat.pow_zero, Nat.div_one]
      · rw [Function.update_noteq ha, if_neg (by omega)]
    · rw [if_neg hq] at hstep
      have hlt := div_lt_two_pow base n f hb hn
      have hpos := numDigits_pos base (n / base) hb
      obtain ⟨result, hres, hval⟩ := ih
        (Function.update memory head (std_string_int_to_ascii_digit (n % base)))
        (head - 1) (n / base) (one_le_of_pos_lt_two_pow _ _ hq hlt) hlt (by omega)
      rw [if_pos hq]
      refine ⟨result, hres, fun a => ?_⟩
      rw [hval a, hstep]
      by_cases ha : a = head
      · subst ha
        rw [if_neg (by omega), Function.update_same, if_pos ⟨by omega, by omega⟩,
          Nat.sub_self, Nat.pow_zero, Nat.div_one]
      · by_cases hr : head - 1 + 1 - numDigits base (n / base) ≤ a ∧ a ≤ head - 1
        · rw [if_pos hr, if_pos ⟨by omega, by omega⟩, div_pow_succ,
            show head - 1 - a + 1 = head - a by omega]
        · rw [if_neg hr, Function.update_noteq ha, if_neg (by omega)]

theorem read_back (base n length : Nat) (chars : Nat → Nat) (hb16 : base ≤ 16)
    (hb : 2 ≤ base) (hlen : n < base ^ length)
    (hchars : ∀ k, k < length →
      chars k = std_string_int_to_ascii_digit (n / base ^ (length - 1 - k) % base)) :
    ∀ j, j ≤ length →
      readNumber base ((List.range j).map chars) = n / base ^ (length - j) := by
  intro j
  induction j with
  | zero =>
    intro _
    rw [Nat.sub_zero, Nat.div_eq_of_lt hlen]
    rfl
  | succ j ih =>
    intro hj
    have hprev := ih (by omega)
    unfold readNumber at hprev ⊢
    rw [List.range_succ, List.map_append, List.foldl_append, hprev]
    simp only [List.map_cons, List.map_nil, List.foldl_cons, List.foldl_nil]
    have hd : n / base ^ (length - 1 - j) % base ≤ 15 := by
      have : n / base ^ (length - 1 - j) % base < base := Nat.mod_lt _ (by omega)
      omega
    rw [hchars j (by omega), digit_round_trip _ hd,
      show length - j = (length - 1 - j) + 1 by omega,
      show length - (j + 1) = length - 1 - j by omega, ← div_pow_succ,
      Nat.div_div_eq_div_mul, Nat.mul_comm base, ← Nat.div_div_eq_div_mul]
    exact Nat.div_add_mod' _ _

/-! ## String library claims -/

/-- C21: number-to-string round trip.  For every `n` below 2^32 and every
base from 2 to 16, `std_string_num_length(n, base)` returns the number of
base-`base` digits of `n` (1 for `n == 0`); `std_string_uint_to_string`
returns, having written exactly that many characters from `target` on, each
in `'0'..'9'` or `'a'..'f'`, character `k` being the digit of weight
`base ^ (length - 1 - k)` (most significant first), followed by one 0
terminator, and no other byte; reading the characters back with
`std_string_ascii_digit_to_int` (`value = value * base + digit`, left to
right) yields `n`.  Both calls return with any fuel of at least 32.  Also
`std_string_ascii_digit_to_int(std_string_int_to_ascii_digit(d)) == d` for
every `d` in 0..15, `'9'` maps to 9 and `'a'` to 10. -/
theorem C21_number_string_round_trip (n base target : Nat) (memory : Nat → Nat)
    (hn : n < 2 ^ 32) (hb2 : 2 ≤ base) (hb16 : base ≤ 16) :
    (∀ fuel, 32 ≤ fuel →
      std_string_num_length fuel n base = some (numDigits base n) ∧
      ∃ result : Nat → Nat,
        std_string_uint_to_string fuel memory target n base = some result ∧
        (∀ k, k < numDigits base n →
          result (target + k) =
            std_string_int_to_ascii_digit
              (n / base ^ (numDigits base n - 1 - k) % base) ∧
          isLowerHexDigit (result (target + k))) ∧
        result (target + numDigits base n) = 0 ∧
        (∀ a, a < target ∨ target + numDigits base n < a → result a = memory a) ∧
        readNumber base (readChars result target (numDigits base n)) = n) ∧
    (∀ d, d ≤ 15 →
      std_string_ascii_digit_to_int (std_string_int_to_ascii_digit d) = d) ∧
    std_string_ascii_digit_to_int 0x39 = 9 ∧
    std_string_ascii_digit_to_int 0x61 = 10 := by
  refine ⟨fun fuel hfuel => ?_, digit_round_trip, by decide, by decide⟩
  have hpow : (2 : Nat) ^ 32 ≤ 2 ^ fuel := Nat.pow_le_pow_right (by decide) hfuel
  have hnf : n < 2 ^ fuel := by omega
  have hle := numDigits_le base hb2 32 n (by decide) hn
  have hpos := numDigits_pos base n hb2
  have hlen : std_string_num_length fuel n base = some (numDigits base n) := by
    unfold std_string_num_length
    rw [num_length_loop_spec base hb2 fuel n 0 (by omega) hnf (by omega), Nat.zero_add]
  refine ⟨hlen, ?_⟩
  obtain ⟨result, hres, hval⟩ := uint_to_string_loop_spec base hb2 hb16 fuel
    (Function.update memory (target + numDigits base n) 0)
    (target + numDigits base n - 1) n (by omega) hnf (by omega)
  have hchar : ∀ k, k < numDigits base n →
      result (target + k) =
        std_string_int_to_ascii_digit
          (n / base ^ (numDigits base n - 1 - k) % base) := by
    intro k hk
    rw [hval (target + k), if_pos ⟨by omega, by omega⟩,
      show target + numDigits base n - 1 - (target + k) = numDigits base n - 1 - k
        by omega]
  refine ⟨result, ?_, fun k hk => ⟨hchar k hk, ?_⟩, ?_, fun a ha => ?_, ?_⟩
  · unfold std_string_uint_to_string
    rw [hlen]
    exact hres
  · rw [hchar k hk]
    apply ascii_digit_is_hex
    have : n / base ^ (numDigits base n - 1 - k) % base < base :=
      Nat.mod_lt _ (by omega)
    omega
  · rw [hval, if_neg (by omega), Function.update_same]
  · rw [hval, if_neg (by omega), Function.update_noteq (by omega)]
  · have h := read_back base n (numDigits base n) (fun k => result (target + k))
      hb16 hb2 (lt_pow_numDigits base n hb2) hchar (numDigits base n) (Nat.le_refl _)
    rw [Nat.sub_self, Nat.pow_zero, Nat.div_one] at h
    exact h

/-- Witness of C21: 3054 in base 16 written at address 100 of a memory filled
with 0xEE gives "bee" and a terminator, and reads back as 3054. -/
theorem C21_number_string_round_trip_witness :
    ((3054 : Nat) < 2 ^ 32 ∧ (2 : Nat) ≤ 16 ∧ (16 : Nat) ≤ 16) ∧
    (std_string_uint_to_string 32 (fun _ => 0xEE) 100 3054 16).map
        (fun m => readChars m 99 5) = some [0xEE, 0x62, 0x65, 0x65, 0x00] ∧
    readNumber 16 [0x62, 0x65, 0x65] = 3054 ∧
    (std_string_num_length 32 3054 16 = some (numDigits 16 3054) ∧
      ∃ result : Nat → Nat,
        std_string_uint_to_string 32 (fun _ => 0xEE) 100 3054 16 = some result ∧
        (∀ k, k < numDigits 16 3054 →
          result (100 + k) =
            std_string_int_to_ascii_digit
              (3054 / 16 ^ (numDigits 16 3054 - 1 - k) % 16) ∧
          isLowerHexDigit (result (100 + k))) ∧
        result (100 + numDigits 16 3054) = 0 ∧
        (∀ a, a < 100 ∨ 100 + numDigits 16 3054 < a → result a = 0xEE) ∧
        readNumber 16 (readChars result 100 (numDigits 16 3054)) = 3054) :=
  ⟨⟨by decide, by decide, by decide⟩, by decide, by decide,
    (C21_number_string_round_trip 3054 16 100 (fun _ => 0xEE) (by decide)
      (by decide) (by decide)).1 32 (Nat.le_refl 32)⟩

end PIC18
